import Mathlib

/-!
Styles of the K9s skin (`internal/config/styles.go`).

A shallow embedding of the style tree, its default builder, the listener
registry and the load protocol, followed by the properties proved about them.

Conventions of the embedding.

* A method with a pointer receiver `func (s *Styles) M(..)` becomes a function
  that takes the value of `*s` before the call and returns the value after it.
* A `StyleListener` is an interface value; the code only ever compares two of
  them (`lis == l`) and calls `StylesChanged` on them.  A listener is therefore
  represented by its dynamic type and dynamic value, which is what `==` looks
  at, and a call `list.StylesChanged(s)` by an entry `(list, s)` of a call
  log: the listener that was invoked and the value of `*s` it was handed.
  Callbacks are observers: they do not re-enter the registry while a
  notification is running.
* A run-time panic unwinds the call: the result records it, together with the
  value of `*s` at that point.
* `ioutil.ReadFile`, `yaml.Unmarshal`, `tcell.ColorNames`, `tcell.GetColor`
  and `tview.Styles` live outside this package.  The first four are parameters
  (`Env`, `Tcell`); `tview.Styles` is a record of the five fields that `Update`
  assigns.
-/

set_option autoImplicit false
set_option linter.dupNamespace false
set_option linter.unnecessarySeqFocus false

namespace Config

/-! ## Data model -/

/-- Color represents a color: `type Color string`. -/
abbrev Color := String

/-- Colors tracks multiple colors: `type Colors []Color`. -/
abbrev Colors := List Color

/-- Body tracks body styles. -/
structure Body where
  FgColor : Color
  BgColor : Color
  LogoColor : Color
deriving DecidableEq

/-- Status tracks resource status styles. -/
structure Status where
  NewColor : Color
  ModifyColor : Color
  AddColor : Color
  ErrorColor : Color
  HighlightColor : Color
  KillColor : Color
  CompletedColor : Color
deriving DecidableEq

/-- Log tracks Log styles. -/
structure Log where
  FgColor : Color
  BgColor : Color
deriving DecidableEq

/-- Yaml tracks yaml styles. -/
structure Yaml where
  KeyColor : Color
  ValueColor : Color
  ColonColor : Color
deriving DecidableEq

/-- Title tracks title styles. -/
structure Title where
  FgColor : Color
  BgColor : Color
  HighlightColor : Color
  CounterColor : Color
  FilterColor : Color
deriving DecidableEq

/-- Info tracks info styles. -/
structure Info where
  SectionColor : Color
  FgColor : Color
deriving DecidableEq

/-- Border tracks border styles. -/
structure Border where
  FgColor : Color
  FocusColor : Color
deriving DecidableEq

/-- Crumb tracks crumbs styles. -/
structure Crumb where
  FgColor : Color
  BgColor : Color
  ActiveColor : Color
deriving DecidableEq

/-- TableHeader tracks table header styles. -/
structure TableHeader where
  FgColor : Color
  BgColor : Color
  SorterColor : Color
deriving DecidableEq

/-- Table tracks table styles. -/
structure Table where
  FgColor : Color
  BgColor : Color
  CursorColor : Color
  MarkColor : Color
  Header : TableHeader
deriving DecidableEq

/-- Xray tracks xray styles. -/
structure Xray where
  FgColor : Color
  BgColor : Color
  CursorColor : Color
  GraphicColor : Color
  ShowIcons : Bool
deriving DecidableEq

/-- Menu tracks menu styles. -/
structure Menu where
  FgColor : Color
  KeyColor : Color
  NumKeyColor : Color
deriving DecidableEq

/-- Charts tracks charts styles.  `ResourceColors` is a Go map
`map[string]Colors`: `none` is the nil map, `some m` a map holding the entries
of the association list `m`. -/
structure Charts where
  BgColor : Color
  DialBgColor : Color
  ChartBgColor : Color
  DefaultDialColors : Colors
  DefaultChartColors : Colors
  ResourceColors : Option (List (String × Colors))
deriving DecidableEq

/-- Frame tracks frame styles. -/
structure Frame where
  Title : Title
  Border : Border
  Menu : Menu
  Crumb : Crumb
  Status : Status
deriving DecidableEq

/-- Views tracks individual view styles. -/
structure Views where
  Table : Table
  Xray : Xray
  Charts : Charts
  Yaml : Yaml
  Log : Log
deriving DecidableEq

/-- Style tracks K9s styles. -/
structure Style where
  Body : Body
  Frame : Frame
  Info : Info
  Views : Views
deriving DecidableEq

/-- The dynamic type of an interface value, as far as `==` can tell: which
type it is, and whether values of the type can be compared (a pointer type
can, a struct type with a slice field cannot). -/
structure DynamicType where
  name : Nat
  comparable : Bool
deriving DecidableEq

/-- StyleListener represents a skin listener: a non-nil interface value, with
its dynamic type and its dynamic value. -/
structure StyleListener where
  typ : DynamicType
  value : Nat
deriving DecidableEq

/-- Styles tracks K9s styling options. -/
structure Styles where
  K9s : Style
  listeners : List StyleListener
deriving DecidableEq


/-! ## Color values -/

/-- DefaultColor represents a default color. -/
def DefaultColor : Color := "default"

/-- TransparentColor represents the terminal bg color. -/
def TransparentColor : Color := "-"

/-- NewColor returns a new color. -/
def NewColor (c : String) : Color := c

/-- String returns color as string. -/
def Color.String (c : Color) : String := c

/-- The part of package `tcell` the code uses: the constant `ColorDefault`, the
table `ColorNames` and the function `GetColor`. -/
structure Tcell where
  ColorDefault : Int
  ColorNames : String → Option Int
  GetColor : String → Int

/-- Color returns a view color. -/
def Color.Color (tc : Tcell) (c : Color) : Int :=
  if c = DefaultColor then tc.ColorDefault
  else
    match tc.ColorNames (Color.String c) with
    | some color => color
    | none => tc.GetColor (Color.String c)

/-- The loop of `Colors.Colors`: `cc = append(cc, color.Color())` for each
element in turn. -/
def Colors.loop (tc : Tcell) : List Color → List Int → List Int
  | [], cc => cc
  | color :: rest, cc => Colors.loop tc rest (cc ++ [Color.Color tc color])

/-- Colors converts series string colors to colors. -/
def Colors.Colors (tc : Tcell) (c : Colors) : List Int :=
  Colors.loop tc c []

/-! ## Default builder -/

def newCharts : Charts :=
  { BgColor := "default"
    DialBgColor := "default"
    ChartBgColor := "default"
    DefaultDialColors := ["palegreen", "orangered"]
    DefaultChartColors := ["palegreen", "orangered"]
    ResourceColors := none }

def newBody : Body :=
  { FgColor := "cadetblue"
    BgColor := "black"
    LogoColor := "orange" }

def newStatus : Status :=
  { NewColor := "lightskyblue"
    ModifyColor := "greenyellow"
    AddColor := "dodgerblue"
    ErrorColor := "orangered"
    HighlightColor := "aqua"
    KillColor := "mediumpurple"
    CompletedColor := "lightgray" }

def newLog : Log :=
  { FgColor := "lightskyblue"
    BgColor := "black" }

def newYaml : Yaml :=
  { KeyColor := "steelblue"
    ColonColor := "white"
    ValueColor := "papayawhip" }

def newTitle : Title :=
  { FgColor := "aqua"
    BgColor := "black"
    HighlightColor := "fuchsia"
    CounterColor := "papayawhip"
    FilterColor := "seagreen" }

def newInfo : Info :=
  { SectionColor := "white"
    FgColor := "orange" }

def newXray : Xray :=
  { FgColor := "aqua"
    BgColor := "black"
    CursorColor := "whitesmoke"
    GraphicColor := "floralwhite"
    ShowIcons := true }

def newTableHeader : TableHeader :=
  { FgColor := "white"
    BgColor := "black"
    SorterColor := "aqua" }

def newTable : Table :=
  { FgColor := "aqua"
    BgColor := "black"
    CursorColor := "aqua"
    MarkColor := "palegreen"
    Header := newTableHeader }

def newCrumb : Crumb :=
  { FgColor := "black"
    BgColor := "aqua"
    ActiveColor := "orange" }

def newBorder : Border :=
  { FgColor := "dodgerblue"
    FocusColor := "lightskyblue" }

def newMenu : Menu :=
  { FgColor := "white"
    KeyColor := "dodgerblue"
    NumKeyColor := "fuchsia" }

def newViews : Views :=
  { Table := newTable
    Xray := newXray
    Charts := newCharts
    Yaml := newYaml
    Log := newLog }

def newFrame : Frame :=
  { Title := newTitle
    Border := newBorder
    Menu := newMenu
    Crumb := newCrumb
    Status := newStatus }

def newStyle : Style :=
  { Body := newBody
    Frame := newFrame
    Info := newInfo
    Views := newViews }

/-- NewStyles creates a new default config: the `listeners` field is left at
its zero value, the nil slice. -/
def NewStyles : Styles :=
  { K9s := newStyle
    listeners := [] }

/-! ## Theme operations -/

/-- One call `list.StylesChanged(s)`: the listener invoked and the styles it
was handed. -/
abbrev Call := StyleListener × Styles

/-- Reset resets styles: the value of `*s` after the call, and the listener
calls made during it (the body makes none). -/
def Styles.Reset (s : Styles) : Styles × List Call :=
  ({ s with K9s := newStyle }, [])

/-- DefaultSkin loads the default skin: the value of `*s` after the call, and
the listener calls made during it (the body makes none). -/
def Styles.DefaultSkin (s : Styles) : Styles × List Call :=
  ({ s with K9s := newStyle }, [])

/-- Body returns body styles. -/
def Styles.Body (s : Styles) : Body := s.K9s.Body

/-- Frame returns frame styles. -/
def Styles.Frame (s : Styles) : Frame := s.K9s.Frame

/-- Crumb returns crumb styles. -/
def Styles.Crumb (s : Styles) : Crumb := (Styles.Frame s).Crumb

/-- Title returns title styles. -/
def Styles.Title (s : Styles) : Title := (Styles.Frame s).Title

/-- Charts returns charts styles. -/
def Styles.Charts (s : Styles) : Charts := s.K9s.Views.Charts

/-- Table returns table styles. -/
def Styles.Table (s : Styles) : Table := s.K9s.Views.Table

/-- Xray returns xray styles. -/
def Styles.Xray (s : Styles) : Xray := s.K9s.Views.Xray

/-- Views returns views styles. -/
def Styles.Views (s : Styles) : Views := s.K9s.Views

/-- FgColor returns the foreground color. -/
def Styles.FgColor (tc : Tcell) (s : Styles) : Int :=
  Color.Color tc (Styles.Body s).FgColor

/-- BgColor returns the background color. -/
def Styles.BgColor (tc : Tcell) (s : Styles) : Int :=
  Color.Color tc (Styles.Body s).BgColor

/-! ## Listener registry -/

/-- AddListener registers a new listener. -/
def Styles.AddListener (s : Styles) (l : StyleListener) : Styles :=
  { s with listeners := s.listeners ++ [l] }

/-- The comparison `lis == l` of two interface values: values of different
dynamic types are unequal, values of one comparable dynamic type are equal
when their dynamic values are, and comparing two values of one dynamic type
that is not comparable panics (`none`). -/
def StyleListener.equal (lis l : StyleListener) : Option Bool :=
  if lis.typ = l.typ then
    if l.typ.comparable then some (decide (lis.value = l.value)) else none
  else some false

/-- The search loop of `RemoveListener`, run over the entries from index `i`
on: the index of the first entry equal to `l` (the loop breaks there), or `-1`
when the loop runs to the end; `none` when a comparison panics. -/
def Styles.victimLoop (l : StyleListener) : List StyleListener → Nat → Option Int
  | [], _ => some (-1)
  | lis :: rest, i =>
    match StyleListener.equal lis l with
    | none => none
    | some true => some (i : Int)
    | some false => Styles.victimLoop l rest (i + 1)

/-- What a call of `RemoveListener` leaves behind: the value of `*s` after the
call, and whether the call panicked. -/
structure RemoveResult where
  styles : Styles
  panicked : Bool
deriving DecidableEq

/-- RemoveListener unregister a listener.  A panic in the search loop comes
before the assignment to `s.listeners`. -/
def Styles.RemoveListener (s : Styles) (l : StyleListener) : RemoveResult :=
  match Styles.victimLoop l s.listeners 0 with
  | none => { styles := s, panicked := true }
  | some victim =>
    if victim = -1 then { styles := s, panicked := false }
    else
      { styles :=
          { s with
            listeners :=
              s.listeners.take victim.toNat ++ s.listeners.drop (victim.toNat + 1) }
        panicked := false }

/-- The loop of `fireStylesChanged` over the remaining listeners: each is
called with `s`. -/
def Styles.fireLoop (s : Styles) : List StyleListener → List Call
  | [] => []
  | list :: rest => (list, s) :: Styles.fireLoop s rest

/-- The calls made by `fireStylesChanged`, in the order they are made. -/
def Styles.fireStylesChanged (s : Styles) : List Call :=
  Styles.fireLoop s s.listeners

/-! ## Load and Update -/

/-- Errors returned by `Load`: a failed file read, a document that does not
parse, or the type errors collected while decoding. -/
inductive Error where
  | io (msg : String)
  | yaml (msg : String)
  | typeError (errors : List String)
deriving DecidableEq

/-- The collaborators of `Load`.  `ReadFile` is `ioutil.ReadFile`.  `Unmarshal`
is `yaml.Unmarshal(f, s)`: it is handed the live `*s` and writes into it in
place, so it maps the value of `*s` before the call to the value after it,
together with the error it returns. -/
structure Env (β : Type) where
  ReadFile : String → Except Error β
  Unmarshal : β → Styles → Styles × Option Error

/-- What a call of `Load` leaves behind: the error returned, the value of `*s`
after the call and the listener calls made during it. -/
structure LoadResult where
  err : Option Error
  styles : Styles
  calls : List Call
deriving DecidableEq

/-- Load K9s configuration from file. -/
def Styles.Load {β : Type} (env : Env β) (s : Styles) (path : String) : LoadResult :=
  match env.ReadFile path with
  | .error err => { err := some err, styles := s, calls := [] }
  | .ok f =>
    match env.Unmarshal f s with
    | (s1, some err) => { err := some err, styles := s1, calls := [] }
    | (s1, none) => { err := none, styles := s1, calls := Styles.fireStylesChanged s1 }

/-- The fields of `tview.Styles` that `Update` assigns. -/
structure TviewStyles where
  PrimitiveBackgroundColor : Int
  ContrastBackgroundColor : Int
  PrimaryTextColor : Int
  BorderColor : Int
  FocusColor : Int
deriving DecidableEq

/-- Update apply terminal colors based on styles: the new `tview.Styles` and
the listener calls made. -/
def Styles.Update (tc : Tcell) (s : Styles) : TviewStyles × List Call :=
  ({ PrimitiveBackgroundColor := Styles.BgColor tc s
     ContrastBackgroundColor := Styles.BgColor tc s
     PrimaryTextColor := Styles.FgColor tc s
     BorderColor := Color.Color tc s.K9s.Frame.Border.FgColor
     FocusColor := Color.Color tc s.K9s.Frame.Border.FocusColor },
   Styles.fireStylesChanged s)

/-! ## The decoder of `gopkg.in/yaml.v2`, on skin documents

`yaml.Unmarshal` first parses the whole input into a node tree and fails
without touching `out` when the input is not well-formed; empty input has no
node and leaves `out` alone.  It then decodes the root node into `out` in
place, in document order: a key of a mapping that names a field is decoded
into that field, any other key is skipped, the merge key `<<` decodes the
mappings of its value into the same target, and a node whose kind does not fit
the target is recorded as a type error while decoding goes on.  A merge key
whose value is no mapping and no sequence of mappings stops the decoder on the
spot.  After the walk `Unmarshal` returns a `*yaml.TypeError` when a type
error was recorded.  The model covers plain scalars, sequences and mappings
with plain scalar keys. -/

/-- A parsed YAML node. -/
inductive Node where
  | scalar (value : String)
  | sequence (children : List Node)
  | mapping (children : List (String × Node))

/-- The file handed to `yaml.Unmarshal`: input that does not parse, input
without a document, or the root node of the document. -/
inductive Doc where
  | malformed (msg : String)
  | empty
  | root (node : Node)

/-- What a plain scalar resolves to, as far as the fields of the tree can tell:
null, a boolean, or anything else. -/
inductive Resolved where
  | null
  | bool (b : Bool)
  | other
deriving DecidableEq

/-- The resolve table of the decoder. -/
def resolve (value : String) : Resolved :=
  if value ∈ ["", "~", "null", "Null", "NULL"] then .null
  else if value ∈ ["y", "Y", "yes", "Yes", "YES", "true", "True", "TRUE", "on", "On", "ON"] then
    .bool true
  else if value ∈ ["n", "N", "no", "No", "NO", "false", "False", "FALSE", "off", "Off", "OFF"] then
    .bool false
  else .other

/-- One recorded type error: the kind of the node and the Go type it was to be
decoded into. -/
def terror (kind typ : String) : String :=
  "cannot unmarshal " ++ kind ++ " into " ++ typ

/-- The error of a merge key whose value cannot be merged. -/
def mergeError : String :=
  "yaml: map merge requires map or sequence of maps as the value"

/-- The outcome of decoding a node into a target: the target after it, the
type errors recorded, and whether the decoder was stopped by a failure. -/
structure Decoded (α : Type) where
  out : α
  terrors : List String
  failed : Bool

/-- The value a scalar gives a `Color`: null gives the zero value, any other
scalar its text. -/
def scalarColor (value : String) : Color :=
  match resolve value with
  | .null => ""
  | _ => value

/-- The string a plain scalar key stands for: null stands for the empty
string, any other scalar for its text. -/
def keyName (value : String) : String :=
  match resolve value with
  | .null => ""
  | _ => value

/-- Decoding a node into a `Color`. -/
def decodeColor (n : Node) (out : Color) : Decoded Color :=
  match n with
  | .scalar value => ⟨scalarColor value, [], false⟩
  | .sequence _ => ⟨out, [terror "sequence" "config.Color"], false⟩
  | .mapping _ => ⟨out, [terror "mapping" "config.Color"], false⟩

/-- Decoding a node into a `bool`. -/
def decodeBool (n : Node) (out : Bool) : Decoded Bool :=
  match n with
  | .scalar value =>
    match resolve value with
    | .null => ⟨false, [], false⟩
    | .bool b => ⟨b, [], false⟩
    | .other => ⟨out, [terror "scalar" "bool"], false⟩
  | .sequence _ => ⟨out, [terror "sequence" "bool"], false⟩
  | .mapping _ => ⟨out, [terror "mapping" "bool"], false⟩

/-- The element loop of a sequence decoded into `Colors`: an element that
decodes is appended, one that does not is skipped and recorded. -/
def sequenceLoop : List Node → Colors × List String
  | [] => ([], [])
  | .scalar value :: rest =>
    let r := sequenceLoop rest
    (scalarColor value :: r.1, r.2)
  | .sequence _ :: rest =>
    let r := sequenceLoop rest
    (r.1, terror "sequence" "config.Color" :: r.2)
  | .mapping _ :: rest =>
    let r := sequenceLoop rest
    (r.1, terror "mapping" "config.Color" :: r.2)

/-- Decoding a node into a `Colors`: a sequence replaces the slice. -/
def decodeColors (n : Node) (out : Colors) : Decoded Colors :=
  match n with
  | .scalar value =>
    match resolve value with
    | .null => ⟨[], [], false⟩
    | _ => ⟨out, [terror "scalar" "config.Colors"], false⟩
  | .sequence children => ⟨(sequenceLoop children).1, (sequenceLoop children).2, false⟩
  | .mapping _ => ⟨out, [terror "mapping" "config.Colors"], false⟩

mutual

/-- The entry loop of a mapping decoded into a struct or a map.  The merge key
`<<` merges its value into the target; any other key is decoded into a string
and `entry` decodes the value into the field or map entry of that name. -/
def mappingLoop {α : Type} (entry : String → Node → α → Decoded α) :
    List (String × Node) → α → Decoded α
  | [], out => ⟨out, [], false⟩
  | (key, child) :: rest, out =>
    let r := if key = "<<" then merge entry child out else entry (keyName key) child out
    if r.failed then r
    else
      let r2 := mappingLoop entry rest r.out
      ⟨r2.out, r.terrors ++ r2.terrors, r2.failed⟩

/-- The value of a merge key: a mapping is decoded into the target, a sequence
is merged element by element, and anything else stops the decoder. -/
def merge {α : Type} (entry : String → Node → α → Decoded α) : Node → α → Decoded α
  | .scalar _, out => ⟨out, [], true⟩
  | .sequence children, out => mergeSequence entry children out
  | .mapping children, out => mappingLoop entry children out

/-- The loop of a merge over a sequence, which steps from the last element back
to the first: each element has to be a mapping and is decoded into the
target. -/
def mergeSequence {α : Type} (entry : String → Node → α → Decoded α) :
    List Node → α → Decoded α
  | [], out => ⟨out, [], false⟩
  | n :: rest, out =>
    let r := mergeSequence entry rest out
    if r.failed then r
    else
      match n with
      | .mapping children =>
        let r2 := mappingLoop entry children r.out
        ⟨r2.out, r.terrors ++ r2.terrors, r2.failed⟩
      | _ => ⟨r.out, r.terrors, true⟩

end

/-- The assignment `m[key] = value` on a map. -/
def setMapIndex (key : String) (value : Colors) :
    List (String × Colors) → List (String × Colors)
  | [] => [(key, value)]
  | (k, v) :: rest =>
    if k = key then (key, value) :: rest else (k, v) :: setMapIndex key value rest

/-- One entry of a mapping decoded into `map[string]Colors`: the value is
decoded into a fresh element, and stored under the key when it decoded. -/
def mapEntry (key : String) (child : Node) (out : List (String × Colors)) :
    Decoded (List (String × Colors)) :=
  match child with
  | .scalar value =>
    match resolve value with
    | .null => ⟨setMapIndex key [] out, [], false⟩
    | _ => ⟨out, [terror "scalar" "config.Colors"], false⟩
  | .sequence children =>
    ⟨setMapIndex key (sequenceLoop children).1 out, (sequenceLoop children).2, false⟩
  | .mapping _ => ⟨out, [terror "mapping" "config.Colors"], false⟩

/-- Decoding a node into the `ResourceColors` map: a mapping is stored entry
by entry into the map that is there (made first when it is nil). -/
def decodeResourceColors (n : Node) (out : Option (List (String × Colors))) :
    Decoded (Option (List (String × Colors))) :=
  match n with
  | .scalar value =>
    match resolve value with
    | .null => ⟨none, [], false⟩
    | _ => ⟨out, [terror "scalar" "map[string]config.Colors"], false⟩
  | .sequence _ => ⟨out, [terror "sequence" "map[string]config.Colors"], false⟩
  | .mapping children =>
    let r := mappingLoop mapEntry children (out.getD [])
    ⟨some r.out, r.terrors, r.failed⟩

/-- Decoding a node into a struct of Go type `typ`: null gives the zero
struct, a mapping is decoded field by field into the struct that is there. -/
def decodeStruct {α : Type} (typ : String) (zero : α)
    (field : String → Node → α → Decoded α) (n : Node) (out : α) : Decoded α :=
  match n with
  | .scalar value =>
    match resolve value with
    | .null => ⟨zero, [], false⟩
    | _ => ⟨out, [terror "scalar" typ], false⟩
  | .sequence _ => ⟨out, [terror "sequence" typ], false⟩
  | .mapping children => mappingLoop field children out

/-- Decoding `child` into one field of `out`, read by `get` and stored by
`set`. -/
def intoField {α β : Type} (dec : Node → β → Decoded β) (get : α → β)
    (set : α → β → α) (child : Node) (out : α) : Decoded α :=
  let r := dec child (get out)
  ⟨set out r.out, r.terrors, r.failed⟩

def Body.field (name : String) (child : Node) (out : Body) : Decoded Body :=
  if name = "fgColor" then
    intoField decodeColor (fun o => o.FgColor) (fun o v => { o with FgColor := v }) child out
  else if name = "bgColor" then
    intoField decodeColor (fun o => o.BgColor) (fun o v => { o with BgColor := v }) child out
  else if name = "logoColor" then
    intoField decodeColor (fun o => o.LogoColor) (fun o v => { o with LogoColor := v }) child out
  else ⟨out, [], false⟩

def Status.field (name : String) (child : Node) (out : Status) : Decoded Status :=
  if name = "newColor" then
    intoField decodeColor (fun o => o.NewColor) (fun o v => { o with NewColor := v }) child out
  else if name = "modifyColor" then
    intoField decodeColor (fun o => o.ModifyColor) (fun o v => { o with ModifyColor := v }) child out
  else if name = "addColor" then
    intoField decodeColor (fun o => o.AddColor) (fun o v => { o with AddColor := v }) child out
  else if name = "errorColor" then
    intoField decodeColor (fun o => o.ErrorColor) (fun o v => { o with ErrorColor := v }) child out
  else if name = "highlightColor" then
    intoField decodeColor (fun o => o.HighlightColor)
      (fun o v => { o with HighlightColor := v }) child out
  else if name = "killColor" then
    intoField decodeColor (fun o => o.KillColor) (fun o v => { o with KillColor := v }) child out
  else if name = "completedColor" then
    intoField decodeColor (fun o => o.CompletedColor)
      (fun o v => { o with CompletedColor := v }) child out
  else ⟨out, [], false⟩

def Log.field (name : String) (child : Node) (out : Log) : Decoded Log :=
  if name = "fgColor" then
    intoField decodeColor (fun o => o.FgColor) (fun o v => { o with FgColor := v }) child out
  else if name = "bgColor" then
    intoField decodeColor (fun o => o.BgColor) (fun o v => { o with BgColor := v }) child out
  else ⟨out, [], false⟩

def Yaml.field (name : String) (child : Node) (out : Yaml) : Decoded Yaml :=
  if name = "keyColor" then
    intoField decodeColor (fun o => o.KeyColor) (fun o v => { o with KeyColor := v }) child out
  else if name = "valueColor" then
    intoField decodeColor (fun o => o.ValueColor) (fun o v => { o with ValueColor := v }) child out
  else if name = "colonColor" then
    intoField decodeColor (fun o => o.ColonColor) (fun o v => { o with ColonColor := v }) child out
  else ⟨out, [], false⟩

def Title.field (name : String) (child : Node) (out : Title) : Decoded Title :=
  if name = "fgColor" then
    intoField decodeColor (fun o => o.FgColor) (fun o v => { o with FgColor := v }) child out
  else if name = "bgColor" then
    intoField decodeColor (fun o => o.BgColor) (fun o v => { o with BgColor := v }) child out
  else if name = "highlightColor" then
    intoField decodeColor (fun o => o.HighlightColor)
      (fun o v => { o with HighlightColor := v }) child out
  else if name = "counterColor" then
    intoField decodeColor (fun o => o.CounterColor)
      (fun o v => { o with CounterColor := v }) child out
  else if name = "filterColor" then
    intoField decodeColor (fun o => o.FilterColor) (fun o v => { o with FilterColor := v }) child out
  else ⟨out, [], false⟩

def Info.field (name : String) (child : Node) (out : Info) : Decoded Info :=
  if name = "sectionColor" then
    intoField decodeColor (fun o => o.SectionColor)
      (fun o v => { o with SectionColor := v }) child out
  else if name = "fgColor" then
    intoField decodeColor (fun o => o.FgColor) (fun o v => { o with FgColor := v }) child out
  else ⟨out, [], false⟩

def Border.field (name : String) (child : Node) (out : Border) : Decoded Border :=
  if name = "fgColor" then
    intoField decodeColor (fun o => o.FgColor) (fun o v => { o with FgColor := v }) child out
  else if name = "focusColor" then
    intoField decodeColor (fun o => o.FocusColor) (fun o v => { o with FocusColor := v }) child out
  else ⟨out, [], false⟩

def Crumb.field (name : String) (child : Node) (out : Crumb) : Decoded Crumb :=
  if name = "fgColor" then
    intoField decodeColor (fun o => o.FgColor) (fun o v => { o with FgColor := v }) child out
  else if name = "bgColor" then
    intoField decodeColor (fun o => o.BgColor) (fun o v => { o with BgColor := v }) child out
  else if name = "activeColor" then
    intoField decodeColor (fun o => o.ActiveColor) (fun o v => { o with ActiveColor := v }) child out
  else ⟨out, [], false⟩

def TableHeader.field (name : String) (child : Node) (out : TableHeader) : Decoded TableHeader :=
  if name = "fgColor" then
    intoField decodeColor (fun o => o.FgColor) (fun o v => { o with FgColor := v }) child out
  else if name = "bgColor" then
    intoField decodeColor (fun o => o.BgColor) (fun o v => { o with BgColor := v }) child out
  else if name = "sorterColor" then
    intoField decodeColor (fun o => o.SorterColor) (fun o v => { o with SorterColor := v }) child out
  else ⟨out, [], false⟩

def TableHeader.zero : TableHeader := ⟨"", "", ""⟩

def Table.field (name : String) (child : Node) (out : Table) : Decoded Table :=
  if name = "fgColor" then
    intoField decodeColor (fun o => o.FgColor) (fun o v => { o with FgColor := v }) child out
  else if name = "bgColor" then
    intoField decodeColor (fun o => o.BgColor) (fun o v => { o with BgColor := v }) child out
  else if name = "cursorColor" then
    intoField decodeColor (fun o => o.CursorColor) (fun o v => { o with CursorColor := v }) child out
  else if name = "markColor" then
    intoField decodeColor (fun o => o.MarkColor) (fun o v => { o with MarkColor := v }) child out
  else if name = "header" then
    intoField (decodeStruct "config.TableHeader" TableHeader.zero TableHeader.field)
      (fun o => o.Header) (fun o v => { o with Header := v }) child out
  else ⟨out, [], false⟩

def Xray.field (name : String) (child : Node) (out : Xray) : Decoded Xray :=
  if name = "fgColor" then
    intoField decodeColor (fun o => o.FgColor) (fun o v => { o with FgColor := v }) child out
  else if name = "bgColor" then
    intoField decodeColor (fun o => o.BgColor) (fun o v => { o with BgColor := v }) child out
  else if name = "cursorColor" then
    intoField decodeColor (fun o => o.CursorColor) (fun o v => { o with CursorColor := v }) child out
  else if name = "graphicColor" then
    intoField decodeColor (fun o => o.GraphicColor)
      (fun o v => { o with GraphicColor := v }) child out
  else if name = "showIcons" then
    intoField decodeBool (fun o => o.ShowIcons) (fun o v => { o with ShowIcons := v }) child out
  else ⟨out, [], false⟩

def Menu.field (name : String) (child : Node) (out : Menu) : Decoded Menu :=
  if name = "fgColor" then
    intoField decodeColor (fun o => o.FgColor) (fun o v => { o with FgColor := v }) child out
  else if name = "keyColor" then
    intoField decodeColor (fun o => o.KeyColor) (fun o v => { o with KeyColor := v }) child out
  else if name = "numKeyColor" then
    intoField decodeColor (fun o => o.NumKeyColor) (fun o v => { o with NumKeyColor := v }) child out
  else ⟨out, [], false⟩

def Charts.field (name : String) (child : Node) (out : Charts) : Decoded Charts :=
  if name = "bgColor" then
    intoField decodeColor (fun o => o.BgColor) (fun o v => { o with BgColor := v }) child out
  else if name = "dialBgColor" then
    intoField decodeColor (fun o => o.DialBgColor) (fun o v => { o with DialBgColor := v }) child out
  else if name = "chartBgColor" then
    intoField decodeColor (fun o => o.ChartBgColor)
      (fun o v => { o with ChartBgColor := v }) child out
  else if name = "defaultDialColors" then
    intoField decodeColors (fun o => o.DefaultDialColors)
      (fun o v => { o with DefaultDialColors := v }) child out
  else if name = "defaultChartColors" then
    intoField decodeColors (fun o => o.DefaultChartColors)
      (fun o v => { o with DefaultChartColors := v }) child out
  else if name = "resourceColors" then
    intoField decodeResourceColors (fun o => o.ResourceColors)
      (fun o v => { o with ResourceColors := v }) child out
  else ⟨out, [], false⟩

def Title.zero : Title := ⟨"", "", "", "", ""⟩

def Border.zero : Border := ⟨"", ""⟩

def Menu.zero : Menu := ⟨"", "", ""⟩

def Crumb.zero : Crumb := ⟨"", "", ""⟩

def Status.zero : Status := ⟨"", "", "", "", "", "", ""⟩

def Frame.field (name : String) (child : Node) (out : Frame) : Decoded Frame :=
  if name = "title" then
    intoField (decodeStruct "config.Title" Title.zero Title.field)
      (fun o => o.Title) (fun o v => { o with Title := v }) child out
  else if name = "border" then
    intoField (decodeStruct "config.Border" Border.zero Border.field)
      (fun o => o.Border) (fun o v => { o with Border := v }) child out
  else if name = "menu" then
    intoField (decodeStruct "config.Menu" Menu.zero Menu.field)
      (fun o => o.Menu) (fun o v => { o with Menu := v }) child out
  else if name = "crumbs" then
    intoField (decodeStruct "config.Crumb" Crumb.zero Crumb.field)
      (fun o => o.Crumb) (fun o v => { o with Crumb := v }) child out
  else if name = "status" then
    intoField (decodeStruct "config.Status" Status.zero Status.field)
      (fun o => o.Status) (fun o v => { o with Status := v }) child out
  else ⟨out, [], false⟩

def Table.zero : Table := ⟨"", "", "", "", TableHeader.zero⟩

def Xray.zero : Xray := ⟨"", "", "", "", false⟩

def Charts.zero : Charts := ⟨"", "", "", [], [], none⟩

def Yaml.zero : Yaml := ⟨"", "", ""⟩

def Log.zero : Log := ⟨"", ""⟩

def Views.field (name : String) (child : Node) (out : Views) : Decoded Views :=
  if name = "table" then
    intoField (decodeStruct "config.Table" Table.zero Table.field)
      (fun o => o.Table) (fun o v => { o with Table := v }) child out
  else if name = "xray" then
    intoField (decodeStruct "config.Xray" Xray.zero Xray.field)
      (fun o => o.Xray) (fun o v => { o with Xray := v }) child out
  else if name = "charts" then
    intoField (decodeStruct "config.Charts" Charts.zero Charts.field)
      (fun o => o.Charts) (fun o v => { o with Charts := v }) child out
  else if name = "yaml" then
    intoField (decodeStruct "config.Yaml" Yaml.zero Yaml.field)
      (fun o => o.Yaml) (fun o v => { o with Yaml := v }) child out
  else if name = "logs" then
    intoField (decodeStruct "config.Log" Log.zero Log.field)
      (fun o => o.Log) (fun o v => { o with Log := v }) child out
  else ⟨out, [], false⟩

def Body.zero : Body := ⟨"", "", ""⟩

def Frame.zero : Frame := ⟨Title.zero, Border.zero, Menu.zero, Crumb.zero, Status.zero⟩

def Info.zero : Info := ⟨"", ""⟩

def Views.zero : Views := ⟨Table.zero, Xray.zero, Charts.zero, Yaml.zero, Log.zero⟩

def Style.field (name : String) (child : Node) (out : Style) : Decoded Style :=
  if name = "body" then
    intoField (decodeStruct "config.Body" Body.zero Body.field)
      (fun o => o.Body) (fun o v => { o with Body := v }) child out
  else if name = "frame" then
    intoField (decodeStruct "config.Frame" Frame.zero Frame.field)
      (fun o => o.Frame) (fun o v => { o with Frame := v }) child out
  else if name = "info" then
    intoField (decodeStruct "config.Info" Info.zero Info.field)
      (fun o => o.Info) (fun o v => { o with Info := v }) child out
  else if name = "views" then
    intoField (decodeStruct "config.Views" Views.zero Views.field)
      (fun o => o.Views) (fun o v => { o with Views := v }) child out
  else ⟨out, [], false⟩

def Style.zero : Style := ⟨Body.zero, Frame.zero, Info.zero, Views.zero⟩

/-- The fields of `Styles` a key can name: `K9s`, under `k9s`; `listeners` is
unexported. -/
def Styles.field (name : String) (child : Node) (out : Styles) : Decoded Styles :=
  if name = "k9s" then
    intoField (decodeStruct "config.Style" Style.zero Style.field)
      (fun o => o.K9s) (fun o v => { o with K9s := v }) child out
  else ⟨out, [], false⟩

/-- The zero value of `Styles`. -/
def Styles.zero : Styles := ⟨Style.zero, []⟩

/-- The error `yaml.Unmarshal` returns after the walk. -/
def Decoded.error {α : Type} (r : Decoded α) : Option Error :=
  if r.failed then some (.yaml mergeError)
  else if r.terrors = [] then none
  else some (.typeError r.terrors)

/-- The decoder `yaml.Unmarshal(f, s)`. -/
def yamlUnmarshal (f : Doc) (s : Styles) : Styles × Option Error :=
  match f with
  | .malformed msg => (s, some (.yaml msg))
  | .empty => (s, none)
  | .root node =>
    ((decodeStruct "config.Styles" Styles.zero Styles.field node s).out,
      (decodeStruct "config.Styles" Styles.zero Styles.field node s).error)

/-- The environment of `Load` with the files of `fs` and the decoder above. -/
def yamlEnv (fs : String → Except Error Doc) : Env Doc :=
  { ReadFile := fs
    Unmarshal := yamlUnmarshal }

/-- The document with the single entry `value` under the keys of `path`. -/
def Node.only : List String → Node → Node
  | [], value => value
  | key :: rest, value => .mapping [(key, Node.only rest value)]

/-- The skin file that holds `value` under `k9s` and the keys of `path`, and
nothing else. -/
def Doc.only (path : List String) (value : Node) : Doc :=
  .root (.mapping [("k9s", Node.only path value)])

/-! ## The leaves of the tree -/

/-- The leaves of the tree that hold a `Color`, named by struct and field. -/
inductive ColorLeaf where
  | bodyFgColor | bodyBgColor | bodyLogoColor
  | titleFgColor | titleBgColor | titleHighlightColor | titleCounterColor | titleFilterColor
  | borderFgColor | borderFocusColor
  | menuFgColor | menuKeyColor | menuNumKeyColor
  | crumbFgColor | crumbBgColor | crumbActiveColor
  | statusNewColor | statusModifyColor | statusAddColor | statusErrorColor | statusHighlightColor | statusKillColor | statusCompletedColor
  | infoSectionColor | infoFgColor
  | tableFgColor | tableBgColor | tableCursorColor | tableMarkColor
  | headerFgColor | headerBgColor | headerSorterColor
  | xrayFgColor | xrayBgColor | xrayCursorColor | xrayGraphicColor
  | chartsBgColor | chartsDialBgColor | chartsChartBgColor
  | yamlKeyColor | yamlValueColor | yamlColonColor
  | logFgColor | logBgColor
deriving DecidableEq

/-- The keys under `k9s` that lead to a leaf, from the `yaml` tags of the fields. -/
def ColorLeaf.path : ColorLeaf → List String
  | .bodyFgColor => ["body", "fgColor"]
  | .bodyBgColor => ["body", "bgColor"]
  | .bodyLogoColor => ["body", "logoColor"]
  | .titleFgColor => ["frame", "title", "fgColor"]
  | .titleBgColor => ["frame", "title", "bgColor"]
  | .titleHighlightColor => ["frame", "title", "highlightColor"]
  | .titleCounterColor => ["frame", "title", "counterColor"]
  | .titleFilterColor => ["frame", "title", "filterColor"]
  | .borderFgColor => ["frame", "border", "fgColor"]
  | .borderFocusColor => ["frame", "border", "focusColor"]
  | .menuFgColor => ["frame", "menu", "fgColor"]
  | .menuKeyColor => ["frame", "menu", "keyColor"]
  | .menuNumKeyColor => ["frame", "menu", "numKeyColor"]
  | .crumbFgColor => ["frame", "crumbs", "fgColor"]
  | .crumbBgColor => ["frame", "crumbs", "bgColor"]
  | .crumbActiveColor => ["frame", "crumbs", "activeColor"]
  | .statusNewColor => ["frame", "status", "newColor"]
  | .statusModifyColor => ["frame", "status", "modifyColor"]
  | .statusAddColor => ["frame", "status", "addColor"]
  | .statusErrorColor => ["frame", "status", "errorColor"]
  | .statusHighlightColor => ["frame", "status", "highlightColor"]
  | .statusKillColor => ["frame", "status", "killColor"]
  | .statusCompletedColor => ["frame", "status", "completedColor"]
  | .infoSectionColor => ["info", "sectionColor"]
  | .infoFgColor => ["info", "fgColor"]
  | .tableFgColor => ["views", "table", "fgColor"]
  | .tableBgColor => ["views", "table", "bgColor"]
  | .tableCursorColor => ["views", "table", "cursorColor"]
  | .tableMarkColor => ["views", "table", "markColor"]
  | .headerFgColor => ["views", "table", "header", "fgColor"]
  | .headerBgColor => ["views", "table", "header", "bgColor"]
  | .headerSorterColor => ["views", "table", "header", "sorterColor"]
  | .xrayFgColor => ["views", "xray", "fgColor"]
  | .xrayBgColor => ["views", "xray", "bgColor"]
  | .xrayCursorColor => ["views", "xray", "cursorColor"]
  | .xrayGraphicColor => ["views", "xray", "graphicColor"]
  | .chartsBgColor => ["views", "charts", "bgColor"]
  | .chartsDialBgColor => ["views", "charts", "dialBgColor"]
  | .chartsChartBgColor => ["views", "charts", "chartBgColor"]
  | .yamlKeyColor => ["views", "yaml", "keyColor"]
  | .yamlValueColor => ["views", "yaml", "valueColor"]
  | .yamlColonColor => ["views", "yaml", "colonColor"]
  | .logFgColor => ["views", "logs", "fgColor"]
  | .logBgColor => ["views", "logs", "bgColor"]

/-- The value of a leaf in a tree. -/
def ColorLeaf.get (t : Style) : ColorLeaf → Color
  | .bodyFgColor => t.Body.FgColor
  | .bodyBgColor => t.Body.BgColor
  | .bodyLogoColor => t.Body.LogoColor
  | .titleFgColor => t.Frame.Title.FgColor
  | .titleBgColor => t.Frame.Title.BgColor
  | .titleHighlightColor => t.Frame.Title.HighlightColor
  | .titleCounterColor => t.Frame.Title.CounterColor
  | .titleFilterColor => t.Frame.Title.FilterColor
  | .borderFgColor => t.Frame.Border.FgColor
  | .borderFocusColor => t.Frame.Border.FocusColor
  | .menuFgColor => t.Frame.Menu.FgColor
  | .menuKeyColor => t.Frame.Menu.KeyColor
  | .menuNumKeyColor => t.Frame.Menu.NumKeyColor
  | .crumbFgColor => t.Frame.Crumb.FgColor
  | .crumbBgColor => t.Frame.Crumb.BgColor
  | .crumbActiveColor => t.Frame.Crumb.ActiveColor
  | .statusNewColor => t.Frame.Status.NewColor
  | .statusModifyColor => t.Frame.Status.ModifyColor
  | .statusAddColor => t.Frame.Status.AddColor
  | .statusErrorColor => t.Frame.Status.ErrorColor
  | .statusHighlightColor => t.Frame.Status.HighlightColor
  | .statusKillColor => t.Frame.Status.KillColor
  | .statusCompletedColor => t.Frame.Status.CompletedColor
  | .infoSectionColor => t.Info.SectionColor
  | .infoFgColor => t.Info.FgColor
  | .tableFgColor => t.Views.Table.FgColor
  | .tableBgColor => t.Views.Table.BgColor
  | .tableCursorColor => t.Views.Table.CursorColor
  | .tableMarkColor => t.Views.Table.MarkColor
  | .headerFgColor => t.Views.Table.Header.FgColor
  | .headerBgColor => t.Views.Table.Header.BgColor
  | .headerSorterColor => t.Views.Table.Header.SorterColor
  | .xrayFgColor => t.Views.Xray.FgColor
  | .xrayBgColor => t.Views.Xray.BgColor
  | .xrayCursorColor => t.Views.Xray.CursorColor
  | .xrayGraphicColor => t.Views.Xray.GraphicColor
  | .chartsBgColor => t.Views.Charts.BgColor
  | .chartsDialBgColor => t.Views.Charts.DialBgColor
  | .chartsChartBgColor => t.Views.Charts.ChartBgColor
  | .yamlKeyColor => t.Views.Yaml.KeyColor
  | .yamlValueColor => t.Views.Yaml.ValueColor
  | .yamlColonColor => t.Views.Yaml.ColonColor
  | .logFgColor => t.Views.Log.FgColor
  | .logBgColor => t.Views.Log.BgColor

/-- The tree with the one leaf assigned. -/
def ColorLeaf.set (t : Style) (v : Color) : ColorLeaf → Style
  | .bodyFgColor => { t with Body := { t.Body with FgColor := v } }
  | .bodyBgColor => { t with Body := { t.Body with BgColor := v } }
  | .bodyLogoColor => { t with Body := { t.Body with LogoColor := v } }
  | .titleFgColor => { t with Frame := { t.Frame with Title := { t.Frame.Title with FgColor := v } } }
  | .titleBgColor => { t with Frame := { t.Frame with Title := { t.Frame.Title with BgColor := v } } }
  | .titleHighlightColor => { t with Frame := { t.Frame with Title := { t.Frame.Title with HighlightColor := v } } }
  | .titleCounterColor => { t with Frame := { t.Frame with Title := { t.Frame.Title with CounterColor := v } } }
  | .titleFilterColor => { t with Frame := { t.Frame with Title := { t.Frame.Title with FilterColor := v } } }
  | .borderFgColor => { t with Frame := { t.Frame with Border := { t.Frame.Border with FgColor := v } } }
  | .borderFocusColor => { t with Frame := { t.Frame with Border := { t.Frame.Border with FocusColor := v } } }
  | .menuFgColor => { t with Frame := { t.Frame with Menu := { t.Frame.Menu with FgColor := v } } }
  | .menuKeyColor => { t with Frame := { t.Frame with Menu := { t.Frame.Menu with KeyColor := v } } }
  | .menuNumKeyColor => { t with Frame := { t.Frame with Menu := { t.Frame.Menu with NumKeyColor := v } } }
  | .crumbFgColor => { t with Frame := { t.Frame with Crumb := { t.Frame.Crumb with FgColor := v } } }
  | .crumbBgColor => { t with Frame := { t.Frame with Crumb := { t.Frame.Crumb with BgColor := v } } }
  | .crumbActiveColor => { t with Frame := { t.Frame with Crumb := { t.Frame.Crumb with ActiveColor := v } } }
  | .statusNewColor => { t with Frame := { t.Frame with Status := { t.Frame.Status with NewColor := v } } }
  | .statusModifyColor => { t with Frame := { t.Frame with Status := { t.Frame.Status with ModifyColor := v } } }
  | .statusAddColor => { t with Frame := { t.Frame with Status := { t.Frame.Status with AddColor := v } } }
  | .statusErrorColor => { t with Frame := { t.Frame with Status := { t.Frame.Status with ErrorColor := v } } }
  | .statusHighlightColor => { t with Frame := { t.Frame with Status := { t.Frame.Status with HighlightColor := v } } }
  | .statusKillColor => { t with Frame := { t.Frame with Status := { t.Frame.Status with KillColor := v } } }
  | .statusCompletedColor => { t with Frame := { t.Frame with Status := { t.Frame.Status with CompletedColor := v } } }
  | .infoSectionColor => { t with Info := { t.Info with SectionColor := v } }
  | .infoFgColor => { t with Info := { t.Info with FgColor := v } }
  | .tableFgColor => { t with Views := { t.Views with Table := { t.Views.Table with FgColor := v } } }
  | .tableBgColor => { t with Views := { t.Views with Table := { t.Views.Table with BgColor := v } } }
  | .tableCursorColor => { t with Views := { t.Views with Table := { t.Views.Table with CursorColor := v } } }
  | .tableMarkColor => { t with Views := { t.Views with Table := { t.Views.Table with MarkColor := v } } }
  | .headerFgColor => { t with Views := { t.Views with Table := { t.Views.Table with Header := { t.Views.Table.Header with FgColor := v } } } }
  | .headerBgColor => { t with Views := { t.Views with Table := { t.Views.Table with Header := { t.Views.Table.Header with BgColor := v } } } }
  | .headerSorterColor => { t with Views := { t.Views with Table := { t.Views.Table with Header := { t.Views.Table.Header with SorterColor := v } } } }
  | .xrayFgColor => { t with Views := { t.Views with Xray := { t.Views.Xray with FgColor := v } } }
  | .xrayBgColor => { t with Views := { t.Views with Xray := { t.Views.Xray with BgColor := v } } }
  | .xrayCursorColor => { t with Views := { t.Views with Xray := { t.Views.Xray with CursorColor := v } } }
  | .xrayGraphicColor => { t with Views := { t.Views with Xray := { t.Views.Xray with GraphicColor := v } } }
  | .chartsBgColor => { t with Views := { t.Views with Charts := { t.Views.Charts with BgColor := v } } }
  | .chartsDialBgColor => { t with Views := { t.Views with Charts := { t.Views.Charts with DialBgColor := v } } }
  | .chartsChartBgColor => { t with Views := { t.Views with Charts := { t.Views.Charts with ChartBgColor := v } } }
  | .yamlKeyColor => { t with Views := { t.Views with Yaml := { t.Views.Yaml with KeyColor := v } } }
  | .yamlValueColor => { t with Views := { t.Views with Yaml := { t.Views.Yaml with ValueColor := v } } }
  | .yamlColonColor => { t with Views := { t.Views with Yaml := { t.Views.Yaml with ColonColor := v } } }
  | .logFgColor => { t with Views := { t.Views with Log := { t.Views.Log with FgColor := v } } }
  | .logBgColor => { t with Views := { t.Views with Log := { t.Views.Log with BgColor := v } } }

/-- The lookup `m[key]` on the entries of a map. -/
def lookup (key : String) : List (String × Colors) → Option Colors
  | [] => none
  | (k, v) :: rest => if k = key then some v else lookup key rest

/-- The leaves of the tree: the `Color` fields, the flag, the two palettes and
the entries of the `ResourceColors` map. -/
inductive Leaf where
  | color (c : ColorLeaf)
  | showIcons
  | defaultDialColors
  | defaultChartColors
  | resourceColors (key : String)
deriving DecidableEq

/-- The value held by a leaf: a color, a flag, a palette, or a map entry
(`none` when the map has no such key). -/
inductive LeafValue where
  | color (c : Color)
  | flag (b : Bool)
  | colors (cs : Colors)
  | entry (cs : Option Colors)
deriving DecidableEq

/-- The keys under `k9s` that lead to a leaf. -/
def Leaf.path : Leaf → List String
  | .color c => c.path
  | .showIcons => ["views", "xray", "showIcons"]
  | .defaultDialColors => ["views", "charts", "defaultDialColors"]
  | .defaultChartColors => ["views", "charts", "defaultChartColors"]
  | .resourceColors key => ["views", "charts", "resourceColors", key]

/-- The value of a leaf in a tree. -/
def Leaf.get (t : Style) : Leaf → LeafValue
  | .color c => .color (c.get t)
  | .showIcons => .flag t.Views.Xray.ShowIcons
  | .defaultDialColors => .colors t.Views.Charts.DefaultDialColors
  | .defaultChartColors => .colors t.Views.Charts.DefaultChartColors
  | .resourceColors key => .entry (lookup key (t.Views.Charts.ResourceColors.getD []))

/-- The texts of a sequence of scalars; `none` when an element is not a
scalar. -/
def scalars : List Node → Option (List String)
  | [] => some []
  | .scalar value :: rest => (scalars rest).map (fun vs => value :: vs)
  | _ :: _ => none

/-- Whether a plain scalar is one of the five spellings of null. -/
def isNull (value : String) : Bool :=
  value = "" || value = "~" || value = "null" || value = "Null" || value = "NULL"

/-- The color a plain scalar denotes: the empty token for null, its text
otherwise. -/
def colorOf (value : String) : Color :=
  if isNull value then "" else value

/-- The flag a plain scalar denotes: `false` for null, the truth value of the
spellings of true and false, and `none` for any other scalar. -/
def flagOf (value : String) : Option Bool :=
  if isNull value then some false
  else if value = "y" ∨ value = "Y" ∨ value = "yes" ∨ value = "Yes" ∨ value = "YES" ∨
      value = "true" ∨ value = "True" ∨ value = "TRUE" ∨
      value = "on" ∨ value = "On" ∨ value = "ON" then some true
  else if value = "n" ∨ value = "N" ∨ value = "no" ∨ value = "No" ∨ value = "NO" ∨
      value = "false" ∨ value = "False" ∨ value = "FALSE" ∨
      value = "off" ∨ value = "Off" ∨ value = "OFF" then some false
  else none

/-- The palette a node denotes: null the empty one, a sequence of scalars the
colors of its elements; `none` for any other node. -/
def paletteOf : Node → Option Colors
  | .scalar value => if isNull value then some [] else none
  | .sequence children => (scalars children).map (fun vs => vs.map colorOf)
  | .mapping _ => none

/-- The value a node denotes for a leaf, `none` when the node does not fit the
type of the leaf. -/
def Leaf.decoded : Leaf → Node → Option LeafValue
  | .color _, .scalar value => some (.color (colorOf value))
  | .color _, _ => none
  | .showIcons, .scalar value => (flagOf value).map .flag
  | .showIcons, _ => none
  | .defaultDialColors, n => (paletteOf n).map .colors
  | .defaultChartColors, n => (paletteOf n).map .colors
  | .resourceColors _, n => (paletteOf n).map (fun cs => .entry (some cs))

/-- The leaves a document can name by a plain key: every field of the tree,
and every map entry whose key is neither the merge key nor a spelling of
null. -/
def Leaf.plain : Leaf → Prop
  | .resourceColors key => key ≠ "<<" ∧ isNull key = false
  | _ => True
/-- A tree in which no leaf is left at the zero value of its type: no `Color`
is the empty string, no palette is empty, the flag is set and the
`ResourceColors` map is not nil. -/
def Style.populated (t : Style) : Prop :=
  (∀ X : ColorLeaf, X.get t ≠ "") ∧
    t.Views.Charts.DefaultDialColors ≠ [] ∧
    t.Views.Charts.DefaultChartColors ≠ [] ∧
    t.Views.Xray.ShowIcons ≠ false ∧
    t.Views.Charts.ResourceColors ≠ none

/-- A listener that is a pointer, at address `addr`: a comparable dynamic
type. -/
def pointer (addr : Nat) : StyleListener :=
  ⟨⟨0, true⟩, addr⟩

/-- A listener that is a struct with a slice field, passed by value: a dynamic
type that is not comparable. -/
def sliceStruct (value : Nat) : StyleListener :=
  ⟨⟨1, false⟩, value⟩

/-- A skin file whose `body` sets `fgColor` to `red` and gives `bgColor` a
sequence where a scalar is expected:
`k9s: {body: {fgColor: red, bgColor: [black]}}`. -/
def mistypedSkin : Doc :=
  .root (.mapping [("k9s", .mapping [("body", .mapping [("fgColor", .scalar "red"),
    ("bgColor", .sequence [.scalar "black"])])])])

/-- A skin file that sets only `k9s.frame.border.focusColor`, to `red`. -/
def focusColorSkin : Doc :=
  Doc.only ["frame", "border", "focusColor"] (.scalar "red")

/-- A skin file whose document is null: `~`. -/
def nullSkin : Doc :=
  .root (.scalar "~")

/-! ## The colors of package `tcell`

`tcell.Color` is an `int32`.  `ColorDefault` is `-1`, and `ColorIsRGB`, the
bit that marks a 24-bit RGB value, is `1 << 24`.  `ColorNames` maps the W3C
color names to color constants; it is a parameter here, apart from its first
sixteen entries. -/

/-- The constant `tcell.ColorDefault`. -/
def ColorDefault : Int := -1

/-- The constant `tcell.ColorIsRGB`. -/
def ColorIsRGB : Int := 2 ^ 24

/-- The function `tcell.NewHexColor`: `ColorIsRGB | Color(v)`. -/
def NewHexColor (v : Int) : Int := Int.lor ColorIsRGB v

/-- The value of a hexadecimal digit. -/
def hexDigit (c : Char) : Option Nat :=
  if '0' ≤ c ∧ c ≤ '9' then some (c.toNat - '0'.toNat)
  else if 'a' ≤ c ∧ c ≤ 'f' then some (c.toNat - 'a'.toNat + 10)
  else if 'A' ≤ c ∧ c ≤ 'F' then some (c.toNat - 'A'.toNat + 10)
  else none

/-- The number written by a run of hexadecimal digits, after the digits read
so far amount to `acc`; `none` when a character is no digit. -/
def hexDigits : List Char → Nat → Option Nat
  | [], acc => some acc
  | c :: rest, acc =>
    match hexDigit c with
    | some d => hexDigits rest (acc * 16 + d)
    | none => none

/-- The call `strconv.ParseInt(s, 16, 32)` on a string of six bytes: an
optional sign and at least one hexadecimal digit; `none` is a parse error. -/
def parseHex (s : String) : Option Int :=
  match s.toList with
  | [] => none
  | '+' :: ds => if ds = [] then none else (hexDigits ds 0).map fun n => (n : Int)
  | '-' :: ds => if ds = [] then none else (hexDigits ds 0).map fun n => -(n : Int)
  | ds => (hexDigits ds 0).map fun n => (n : Int)

/-- The function `tcell.GetColor` over the table `names`: the color of a name
in the table, the RGB color of `#` and six hexadecimal digits, and
`ColorDefault` for anything else. -/
def GetColor (names : String → Option Int) (name : String) : Int :=
  match names name with
  | some c => c
  | none =>
    if name.utf8ByteSize = 7 ∧ name.get 0 = '#' then
      match parseHex (name.drop 1) with
      | some v => NewHexColor v
      | none => ColorDefault
    else ColorDefault

/-- Package `tcell` with the table `names` for `ColorNames`. -/
def tcellWith (names : String → Option Int) : Tcell :=
  { ColorDefault := ColorDefault
    ColorNames := names
    GetColor := GetColor names }

/-- The first sixteen entries of `tcell.ColorNames`, the basic colors
`ColorBlack` to `ColorWhite`. -/
def basicColorNames (name : String) : Option Int :=
  if name = "black" then some 0
  else if name = "maroon" then some 1
  else if name = "green" then some 2
  else if name = "olive" then some 3
  else if name = "navy" then some 4
  else if name = "purple" then some 5
  else if name = "teal" then some 6
  else if name = "silver" then some 7
  else if name = "gray" then some 8
  else if name = "red" then some 9
  else if name = "lime" then some 10
  else if name = "yellow" then some 11
  else if name = "blue" then some 12
  else if name = "fuchsia" then some 13
  else if name = "aqua" then some 14
  else if name = "white" then some 15
  else none

/-! ## Properties -/

/-! ### The listener registry -/

theorem equal_of_comparable (lis l : StyleListener) (hc : l.typ.comparable = true) :
    StyleListener.equal lis l = some (decide (lis = l)) := by
  unfold StyleListener.equal
  by_cases ht : lis.typ = l.typ
  · rw [if_pos ht, if_pos hc]
    rcases lis with ⟨t1, v1⟩
    rcases l with ⟨t2, v2⟩
    simp only at ht
    subst ht
    simp
  · rw [if_neg ht]
    have hne : lis ≠ l := fun e => ht (by rw [e])
    simp [hne]

theorem equal_of_uncomparable (lis l : StyleListener) (hc : l.typ.comparable = false) :
    StyleListener.equal lis l = if lis.typ = l.typ then none else some false := by
  unfold StyleListener.equal
  simp [hc]

theorem victimLoop_not_mem (l : StyleListener) (ls : List StyleListener) (i : Nat)
    (hc : l.typ.comparable = true) (h : l ∉ ls) :
    Styles.victimLoop l ls i = some (-1) := by
  induction ls generalizing i with
  | nil => rfl
  | cons lis rest ih =>
    have hne : lis ≠ l := fun e => h (by simp [e])
    have hrest : l ∉ rest := fun m => h (List.mem_cons_of_mem _ m)
    simp [Styles.victimLoop, equal_of_comparable lis l hc, hne, ih (i + 1) hrest]

theorem victimLoop_append (l : StyleListener) (pre post : List StyleListener) (i : Nat)
    (hc : l.typ.comparable = true) (hpre : l ∉ pre) :
    Styles.victimLoop l (pre ++ l :: post) i = some ((i + pre.length : Nat) : Int) := by
  induction pre generalizing i with
  | nil => simp [Styles.victimLoop, equal_of_comparable l l hc]
  | cons lis rest ih =>
    have hne : lis ≠ l := fun e => hpre (by simp [e])
    have hrest : l ∉ rest := fun m => hpre (List.mem_cons_of_mem _ m)
    have hstep : Styles.victimLoop l (lis :: rest ++ l :: post) i =
        Styles.victimLoop l (rest ++ l :: post) (i + 1) := by
      show Styles.victimLoop l (lis :: (rest ++ l :: post)) i = _
      simp [Styles.victimLoop, equal_of_comparable lis l hc, hne]
    rw [hstep, ih (i + 1) hrest, List.length_cons]
    congr 2
    omega

theorem victimLoop_uncomparable (l : StyleListener) (ls : List StyleListener) (i : Nat)
    (hc : l.typ.comparable = false) :
    Styles.victimLoop l ls i =
      if ∃ lis ∈ ls, lis.typ = l.typ then none else some (-1) := by
  induction ls generalizing i with
  | nil => simp [Styles.victimLoop]
  | cons lis rest ih =>
    by_cases ht : lis.typ = l.typ
    · simp [Styles.victimLoop, equal_of_uncomparable lis l hc, ht]
    · simp [Styles.victimLoop, equal_of_uncomparable lis l hc, ht, ih (i + 1)]

theorem removeListener_not_mem (s : Styles) (l : StyleListener)
    (hc : l.typ.comparable = true) (h : l ∉ s.listeners) :
    s.RemoveListener l = { styles := s, panicked := false } := by
  simp [Styles.RemoveListener, victimLoop_not_mem l s.listeners 0 hc h]

theorem removeListener_split (s : Styles) (l : StyleListener) (pre post : List StyleListener)
    (hc : l.typ.comparable = true) (hsplit : s.listeners = pre ++ l :: post)
    (hpre : l ∉ pre) :
    s.RemoveListener l =
      { styles := { s with listeners := pre ++ post }, panicked := false } := by
  have hv0 : Styles.victimLoop l s.listeners 0 = some (pre.length : Int) := by
    rw [hsplit, victimLoop_append l pre post 0 hc hpre]; simp
  have hne : ¬ ((pre.length : Int) = -1) := by omega
  simp only [Styles.RemoveListener, hv0, if_neg hne, Int.toNat_ofNat]
  rw [hsplit]
  congr 2
  simp [List.take_append_eq_append_take, List.drop_append_eq_append_drop]

theorem removeListener_panicked (s : Styles) (l : StyleListener) :
    (s.RemoveListener l).panicked = true ↔
      l.typ.comparable = false ∧ ∃ lis ∈ s.listeners, lis.typ = l.typ := by
  cases hc : l.typ.comparable with
  | true =>
    by_cases hmem : l ∈ s.listeners
    · obtain ⟨pre, post, hsplit, hpre⟩ := List.eq_append_cons_of_mem hmem
      simp [removeListener_split s l pre post hc hsplit hpre]
    · simp [removeListener_not_mem s l hc hmem]
  | false =>
    by_cases hex : ∃ lis ∈ s.listeners, lis.typ = l.typ
    · simp [Styles.RemoveListener, victimLoop_uncomparable l s.listeners 0 hc, hex]
    · simp [Styles.RemoveListener, victimLoop_uncomparable l s.listeners 0 hc, hex]

theorem removeListener_of_not_panicked (s : Styles) (l : StyleListener)
    (hp : (s.RemoveListener l).panicked = false) (h : l ∉ s.listeners) :
    s.RemoveListener l = { styles := s, panicked := false } := by
  cases hc : l.typ.comparable with
  | true => exact removeListener_not_mem s l hc h
  | false =>
    have hex : ¬ ∃ lis ∈ s.listeners, lis.typ = l.typ := by
      intro hex
      have := (removeListener_panicked s l).mpr ⟨hc, hex⟩
      rw [hp] at this
      exact Bool.noConfusion this
    simp [Styles.RemoveListener, victimLoop_uncomparable l s.listeners 0 hc, hex]

theorem mem_comparable (s : Styles) (l : StyleListener)
    (hp : (s.RemoveListener l).panicked = false) (h : l ∈ s.listeners) :
    l.typ.comparable = true := by
  cases hc : l.typ.comparable with
  | true => rfl
  | false =>
    have := (removeListener_panicked s l).mpr ⟨hc, l, h, rfl⟩
    rw [hp] at this
    exact Bool.noConfusion this

theorem removeListener_comparable (s : Styles) (l : StyleListener)
    (hc : l.typ.comparable = true) : (s.RemoveListener l).panicked = false := by
  cases hp : (s.RemoveListener l).panicked with
  | false => rfl
  | true =>
    have h1 := ((removeListener_panicked s l).mp hp).1
    rw [hc] at h1
    exact Bool.noConfusion h1

theorem removeListener_K9s (s : Styles) (l : StyleListener) :
    (s.RemoveListener l).styles.K9s = s.K9s := by
  unfold Styles.RemoveListener
  split
  · rfl
  · split <;> rfl

theorem fireLoop_eq_map (s : Styles) (ls : List StyleListener) :
    Styles.fireLoop s ls = ls.map (fun l => (l, s)) := by
  induction ls with
  | nil => rfl
  | cons l rest ih => simp [Styles.fireLoop, ih]

theorem fireStylesChanged_eq_map (s : Styles) :
    s.fireStylesChanged = s.listeners.map (fun l => (l, s)) :=
  fireLoop_eq_map s s.listeners

theorem count_fst_fire (s : Styles) (l : StyleListener) :
    (s.fireStylesChanged.map Prod.fst).count l = s.listeners.count l := by
  rw [fireStylesChanged_eq_map, List.map_map]
  have hid : (Prod.fst ∘ fun l => (l, s)) = (id : StyleListener → StyleListener) := rfl
  rw [hid, List.map_id]

theorem fire_fst (s : Styles) : s.fireStylesChanged.map Prod.fst = s.listeners := by
  rw [fireStylesChanged_eq_map, List.map_map]
  exact List.map_id _

theorem fire_mem (s : Styles) (c : Call) (h : c ∈ s.fireStylesChanged) :
    c.1 ∈ s.listeners ∧ c.2 = s := by
  rw [fireStylesChanged_eq_map, List.mem_map] at h
  obtain ⟨l, hl, rfl⟩ := h
  exact ⟨hl, rfl⟩

/-! ### Load -/

theorem load_of_read {β : Type} (env : Env β) (s : Styles) (path : String) (f : β)
    (hread : env.ReadFile path = .ok f) :
    (s.Load env path).err = (env.Unmarshal f s).2 ∧
      (s.Load env path).styles = (env.Unmarshal f s).1 ∧
      (s.Load env path).calls =
        match (env.Unmarshal f s).2 with
        | some _ => []
        | none => (env.Unmarshal f s).1.fireStylesChanged := by
  unfold Styles.Load
  rw [hread]
  rcases hu : env.Unmarshal f s with ⟨s1, _ | err⟩ <;> simp [hu]

theorem load_calls_of_ok {β : Type} (env : Env β) (s : Styles) (path : String)
    (h : (s.Load env path).err = none) :
    (s.Load env path).calls = (s.Load env path).styles.fireStylesChanged := by
  unfold Styles.Load at h ⊢
  split
  · rename_i err he
    simp [he] at h
  · rename_i f he
    split
    · rename_i s1 err hu
      simp [he, hu] at h
    · rfl

theorem load_calls_cases {β : Type} (env : Env β) (s : Styles) (path : String) :
    (s.Load env path).calls = [] ∨
      (s.Load env path).calls = (s.Load env path).styles.fireStylesChanged := by
  unfold Styles.Load
  split
  · exact Or.inl rfl
  · split
    · exact Or.inl rfl
    · exact Or.inr rfl

theorem load_calls_mem {β : Type} (env : Env β) (s : Styles) (path : String) (c : Call)
    (h : c ∈ (s.Load env path).calls) : c.1 ∈ (s.Load env path).styles.listeners := by
  rcases load_calls_cases env s path with h0 | h1
  · rw [h0] at h
    cases h
  · rw [h1] at h
    exact (fire_mem _ c h).1

/-! ### The decoder -/

mutual

theorem mappingLoop_keeps {α γ : Type} (g : α → γ) (entry : String → Node → α → Decoded α)
    (h : ∀ k c o, g (entry k c o).out = g o) (es : List (String × Node)) (out : α) :
    g (mappingLoop entry es out).out = g out := by
  match es with
  | [] => simp [mappingLoop]
  | (key, child) :: rest =>
    have h1 : g (if key = "<<" then merge entry child out
        else entry (keyName key) child out).out = g out := by
      by_cases hk : key = "<<"
      · rw [if_pos hk]
        exact merge_keeps g entry h child out
      · rw [if_neg hk]
        exact h _ _ _
    rw [mappingLoop]
    dsimp only
    generalize (if key = "<<" then merge entry child out
      else entry (keyName key) child out) = r at h1 ⊢
    by_cases hf : r.failed = true
    · rw [if_pos hf]
      exact h1
    · rw [if_neg hf]
      dsimp only
      rw [mappingLoop_keeps g entry h rest r.out, h1]
termination_by sizeOf es
decreasing_by
  all_goals simp_wf
  all_goals omega

theorem merge_keeps {α γ : Type} (g : α → γ) (entry : String → Node → α → Decoded α)
    (h : ∀ k c o, g (entry k c o).out = g o) (n : Node) (out : α) :
    g (merge entry n out).out = g out := by
  match n with
  | .scalar _ => simp [merge]
  | .sequence children =>
    rw [merge]
    exact mergeSequence_keeps g entry h children out
  | .mapping children =>
    rw [merge]
    exact mappingLoop_keeps g entry h children out
termination_by sizeOf n
decreasing_by
  all_goals simp_wf

theorem mergeSequence_keeps {α γ : Type} (g : α → γ)
    (entry : String → Node → α → Decoded α) (h : ∀ k c o, g (entry k c o).out = g o)
    (ns : List Node) (out : α) :
    g (mergeSequence entry ns out).out = g out := by
  match ns with
  | [] => simp [mergeSequence]
  | .scalar value :: rest =>
    have h1 := mergeSequence_keeps g entry h rest out
    simp only [mergeSequence]
    split <;> exact h1
  | .sequence children :: rest =>
    have h1 := mergeSequence_keeps g entry h rest out
    simp only [mergeSequence]
    split <;> exact h1
  | .mapping children :: rest =>
    have h1 := mergeSequence_keeps g entry h rest out
    simp only [mergeSequence]
    split
    · exact h1
    · rw [mappingLoop_keeps g entry h children _, h1]
termination_by sizeOf ns
decreasing_by
  all_goals simp_wf
  all_goals omega

end

theorem field_listeners (k : String) (c : Node) (o : Styles) :
    (Styles.field k c o).out.listeners = o.listeners := by
  unfold Styles.field
  split <;> rfl

theorem yamlUnmarshal_mapping_listeners (es : List (String × Node)) (s : Styles) :
    (yamlUnmarshal (.root (.mapping es)) s).1.listeners = s.listeners := by
  simp only [yamlUnmarshal, decodeStruct]
  exact mappingLoop_keeps (fun o => o.listeners) Styles.field field_listeners es s

theorem yamlUnmarshal_cases (doc : Doc) (s : Styles) :
    (yamlUnmarshal doc s).1.listeners = s.listeners ∨
      ((yamlUnmarshal doc s).1 = Styles.zero ∧ (yamlUnmarshal doc s).2 = none) := by
  cases doc with
  | malformed msg => exact Or.inl rfl
  | empty => exact Or.inl rfl
  | root node =>
    cases node with
    | scalar value =>
      cases hr : resolve value <;>
        simp [yamlUnmarshal, decodeStruct, hr, Decoded.error]
    | sequence children => exact Or.inl rfl
    | mapping children => exact Or.inl (yamlUnmarshal_mapping_listeners children s)

theorem yamlUnmarshal_listeners_mem (doc : Doc) (s : Styles) (l : StyleListener)
    (h : l ∈ (yamlUnmarshal doc s).1.listeners) : l ∈ s.listeners := by
  rcases yamlUnmarshal_cases doc s with h1 | ⟨h2, _⟩
  · rw [h1] at h
    exact h
  · rw [h2] at h
    cases h

theorem yamlUnmarshal_listeners_of_error (doc : Doc) (s : Styles)
    (h : (yamlUnmarshal doc s).2 ≠ none) :
    (yamlUnmarshal doc s).1.listeners = s.listeners := by
  rcases yamlUnmarshal_cases doc s with h1 | ⟨_, h2⟩
  · exact h1
  · exact absurd h2 h

theorem yamlLoad_calls_mem (fs : String → Except Error Doc) (s : Styles) (path : String)
    (c : Call) (h : c ∈ (s.Load (yamlEnv fs) path).calls) : c.1 ∈ s.listeners := by
  have hm := load_calls_mem (yamlEnv fs) s path c h
  cases hread : fs path with
  | error e =>
    have hl : s.Load (yamlEnv fs) path = { err := some e, styles := s, calls := [] } := by
      unfold Styles.Load
      simp [yamlEnv, hread]
    rw [hl] at h
    cases h
  | ok f =>
    have hs := (load_of_read (yamlEnv fs) s path f hread).2.1
    rw [hs] at hm
    exact yamlUnmarshal_listeners_mem f s c.1 hm

/-! ### The decoder on a document with one leaf -/

theorem decodeColor_failed (n : Node) (out : Color) : (decodeColor n out).failed = false := by
  cases n <;> rfl

theorem decodeBool_failed (n : Node) (out : Bool) : (decodeBool n out).failed = false := by
  cases n with
  | scalar value => simp only [decodeBool]; split <;> rfl
  | sequence children => rfl
  | mapping children => rfl

theorem decodeColors_failed (n : Node) (out : Colors) :
    (decodeColors n out).failed = false := by
  cases n with
  | scalar value => simp only [decodeColors]; split <;> rfl
  | sequence children => rfl
  | mapping children => rfl

theorem mapEntry_failed (key : String) (n : Node) (out : List (String × Colors)) :
    (mapEntry key n out).failed = false := by
  cases n with
  | scalar value => simp only [mapEntry]; split <;> rfl
  | sequence children => rfl
  | mapping children => rfl

theorem resolve_null (value : String) (h : resolve value = .null) :
    isNull value = true ∧ flagOf value = some false ∧ colorOf value = "" ∧
      scalarColor value = "" := by
  have hn : isNull value = true := by
    unfold resolve at h
    unfold isNull
    split at h
    · rename_i hm
      simp only [List.mem_cons, List.mem_singleton, List.not_mem_nil, or_false] at hm
      rcases hm with h1 | h1 | h1 | h1 | h1 <;> simp [h1]
    · split at h
      · cases h
      · split at h <;> cases h
  refine ⟨hn, ?_, ?_, ?_⟩
  · simp [flagOf, hn]
  · simp [colorOf, hn]
  · simp [scalarColor, h]

theorem resolve_not_null (value : String) (h : resolve value ≠ .null) :
    isNull value = false ∧ colorOf value = value ∧ scalarColor value = value := by
  have hn : isNull value = false := by
    cases hi : isNull value with
    | false => rfl
    | true =>
      exfalso
      apply h
      unfold isNull at hi
      unfold resolve
      have hm : value ∈ ["", "~", "null", "Null", "NULL"] := by
        simp only [Bool.or_eq_true, decide_eq_true_eq] at hi
        simp only [List.mem_cons, List.mem_singleton, List.not_mem_nil, or_false]
        tauto
      rw [if_pos hm]
  refine ⟨hn, by simp [colorOf, hn], ?_⟩
  unfold scalarColor
  split
  · rename_i hr
    exact absurd hr h
  · rfl

theorem resolve_bool (value : String) (b : Bool) (h : resolve value = .bool b) :
    isNull value = false ∧ flagOf value = some b := by
  have hn := (resolve_not_null value (by rw [h]; exact Resolved.noConfusion)).1
  refine ⟨hn, ?_⟩
  unfold resolve at h
  unfold flagOf
  rw [hn]
  split at h
  · cases h
  · split at h
    · rename_i hm
      cases h
      simp only [List.mem_cons, List.mem_singleton, List.not_mem_nil, or_false] at hm
      simp [hm]
    · split at h
      · rename_i hm1 hm
        cases h
        simp only [List.mem_cons, List.mem_singleton, List.not_mem_nil, or_false] at hm hm1
        simp [hm, hm1]
      · cases h

theorem resolve_other (value : String) (h : resolve value = .other) :
    isNull value = false ∧ flagOf value = none := by
  have hn := (resolve_not_null value (by rw [h]; exact Resolved.noConfusion)).1
  refine ⟨hn, ?_⟩
  unfold resolve at h
  unfold flagOf
  rw [hn]
  split at h
  · cases h
  · split at h
    · cases h
    · split at h
      · cases h
      · rename_i hm1 hm
        simp only [List.mem_cons, List.mem_singleton, List.not_mem_nil, or_false] at hm hm1
        simp [hm, hm1]

theorem scalarColor_eq (value : String) : scalarColor value = colorOf value := by
  cases hr : resolve value with
  | null =>
    have h := resolve_null value hr
    rw [h.2.2.2, h.2.2.1]
  | bool b =>
    have h := resolve_not_null value (by rw [hr]; exact Resolved.noConfusion)
    rw [h.2.2, h.2.1]
  | other =>
    have h := resolve_not_null value (by rw [hr]; exact Resolved.noConfusion)
    rw [h.2.2, h.2.1]

theorem resolve_of_isNull (key : String) (h : isNull key = false) : resolve key ≠ .null := by
  intro hr
  have := (resolve_null key hr).1
  rw [h] at this
  exact Bool.noConfusion this

theorem keyName_of_plain (key : String) (h : resolve key ≠ .null) : keyName key = key := by
  unfold keyName
  split
  · rename_i hr
    exact absurd hr h
  · rfl

theorem sequenceLoop_ok (cs : List Node) (h : (sequenceLoop cs).2 = []) :
    (scalars cs).map (fun vs => vs.map colorOf) = some (sequenceLoop cs).1 := by
  induction cs with
  | nil => rfl
  | cons n rest ih =>
    cases n with
    | scalar value =>
      simp only [sequenceLoop] at h ⊢
      have h1 := ih h
      cases hs : scalars rest with
      | none => simp [hs] at h1
      | some vs =>
        simp only [hs, Option.map_some'] at h1
        simp [scalars, hs, Option.some.inj h1, scalarColor_eq]
    | sequence children => simp [sequenceLoop] at h
    | mapping children => simp [sequenceLoop] at h

theorem lookup_setMapIndex_self (key : String) (value : Colors) (m : List (String × Colors)) :
    lookup key (setMapIndex key value m) = some value := by
  induction m with
  | nil => simp [setMapIndex, lookup]
  | cons e rest ih =>
    obtain ⟨k, v⟩ := e
    by_cases hk : k = key
    · simp [setMapIndex, lookup, hk]
    · simp [setMapIndex, lookup, hk, ih]

theorem lookup_setMapIndex_ne (key other : String) (value : Colors)
    (m : List (String × Colors)) (h : other ≠ key) :
    lookup other (setMapIndex key value m) = lookup other m := by
  induction m with
  | nil => simp [setMapIndex, lookup, Ne.symm h]
  | cons e rest ih =>
    obtain ⟨k, v⟩ := e
    by_cases hk : k = key
    · subst hk
      simp [setMapIndex, lookup, Ne.symm h]
    · simp [setMapIndex, lookup, hk, ih]

theorem unmarshal_color (X : ColorLeaf) (n : Node) (s : Styles) :
    yamlUnmarshal (Doc.only X.path n) s =
      ({ s with K9s := ColorLeaf.set s.K9s (decodeColor n (X.get s.K9s)).out X },
        if (decodeColor n (X.get s.K9s)).terrors = [] then none
        else some (.typeError (decodeColor n (X.get s.K9s)).terrors)) := by
  cases X <;>
    simp [yamlUnmarshal, Doc.only, Node.only, mappingLoop, Styles.field, decodeStruct,
      Style.field, intoField, Frame.field, Border.field, ColorLeaf.path, ColorLeaf.get,
      ColorLeaf.set, Body.field, Title.field, Menu.field, Crumb.field, Status.field,
      Info.field, Views.field, Table.field, TableHeader.field, Xray.field, Charts.field,
      Yaml.field, Log.field, keyName, resolve, Decoded.error, decodeColor_failed]

theorem unmarshal_showIcons (n : Node) (s : Styles) :
    yamlUnmarshal (Doc.only ["views", "xray", "showIcons"] n) s =
      ({ s with K9s := { s.K9s with Views := { s.K9s.Views with Xray := { s.K9s.Views.Xray with
          ShowIcons := (decodeBool n s.K9s.Views.Xray.ShowIcons).out } } } },
        if (decodeBool n s.K9s.Views.Xray.ShowIcons).terrors = [] then none
        else some (.typeError (decodeBool n s.K9s.Views.Xray.ShowIcons).terrors)) := by
  simp [yamlUnmarshal, Doc.only, Node.only, mappingLoop, Styles.field, decodeStruct,
    Style.field, intoField, Views.field, Xray.field, Charts.field, keyName, resolve,
    Decoded.error, decodeBool_failed]

theorem unmarshal_dialColors (n : Node) (s : Styles) :
    yamlUnmarshal (Doc.only ["views", "charts", "defaultDialColors"] n) s =
      ({ s with K9s := { s.K9s with Views := { s.K9s.Views with
          Charts := { s.K9s.Views.Charts with DefaultDialColors :=
            (decodeColors n s.K9s.Views.Charts.DefaultDialColors).out } } } },
        if (decodeColors n s.K9s.Views.Charts.DefaultDialColors).terrors = [] then none
        else some (.typeError (decodeColors n s.K9s.Views.Charts.DefaultDialColors).terrors)) := by
  simp [yamlUnmarshal, Doc.only, Node.only, mappingLoop, Styles.field, decodeStruct,
    Style.field, intoField, Views.field, Xray.field, Charts.field, keyName, resolve,
    Decoded.error, decodeColors_failed]

theorem unmarshal_chartColors (n : Node) (s : Styles) :
    yamlUnmarshal (Doc.only ["views", "charts", "defaultChartColors"] n) s =
      ({ s with K9s := { s.K9s with Views := { s.K9s.Views with
          Charts := { s.K9s.Views.Charts with DefaultChartColors :=
            (decodeColors n s.K9s.Views.Charts.DefaultChartColors).out } } } },
        if (decodeColors n s.K9s.Views.Charts.DefaultChartColors).terrors = [] then none
        else some (.typeError (decodeColors n s.K9s.Views.Charts.DefaultChartColors).terrors)) := by
  simp [yamlUnmarshal, Doc.only, Node.only, mappingLoop, Styles.field, decodeStruct,
    Style.field, intoField, Views.field, Xray.field, Charts.field, keyName, resolve,
    Decoded.error, decodeColors_failed]

theorem mappingLoop_mapEntry (key : String) (n : Node) (m : List (String × Colors))
    (hk : key ≠ "<<") (hr : resolve key ≠ .null) :
    mappingLoop mapEntry [(key, n)] m =
      ⟨(mapEntry key n m).out, (mapEntry key n m).terrors, false⟩ := by
  simp [mappingLoop, hk, keyName_of_plain key hr, mapEntry_failed]

theorem unmarshal_resourceNode (m : Node) (s : Styles) :
    yamlUnmarshal (Doc.only ["views", "charts", "resourceColors"] m) s =
      ({ s with K9s := { s.K9s with Views := { s.K9s.Views with
          Charts := { s.K9s.Views.Charts with
            ResourceColors :=
              (decodeResourceColors m s.K9s.Views.Charts.ResourceColors).out } } } },
        (decodeResourceColors m s.K9s.Views.Charts.ResourceColors).error) := by
  rcases hd : decodeResourceColors m s.K9s.Views.Charts.ResourceColors with ⟨o, te, fl⟩
  cases fl <;>
    simp [yamlUnmarshal, Doc.only, Node.only, mappingLoop, Styles.field, decodeStruct,
      Style.field, intoField, Views.field, Charts.field, keyName, resolve,
      Decoded.error, hd]

theorem unmarshal_resourceColors (key : String) (n : Node) (s : Styles) (hk : key ≠ "<<")
    (hr : resolve key ≠ .null) :
    yamlUnmarshal (Doc.only ["views", "charts", "resourceColors", key] n) s =
      ({ s with K9s := { s.K9s with Views := { s.K9s.Views with
          Charts := { s.K9s.Views.Charts with
            ResourceColors := some
              (mapEntry key n (s.K9s.Views.Charts.ResourceColors.getD [])).out } } } },
        if (mapEntry key n (s.K9s.Views.Charts.ResourceColors.getD [])).terrors = [] then none
        else some (.typeError
          (mapEntry key n (s.K9s.Views.Charts.ResourceColors.getD [])).terrors)) := by
  have hm := mappingLoop_mapEntry key n (s.K9s.Views.Charts.ResourceColors.getD []) hk hr
  have hdoc : Doc.only ["views", "charts", "resourceColors", key] n =
      Doc.only ["views", "charts", "resourceColors"] (.mapping [(key, n)]) := rfl
  rw [hdoc, unmarshal_resourceNode]
  simp only [decodeResourceColors, hm, Decoded.error]
  simp

theorem get_set_ne (X Y : ColorLeaf) (v : Color) (t : Style) (h : Y ≠ X) :
    Y.get (ColorLeaf.set t v X) = Y.get t := by
  cases X <;> cases Y <;> first | rfl | exact absurd rfl h

theorem get_set_self (X : ColorLeaf) (v : Color) (t : Style) :
    X.get (ColorLeaf.set t v X) = v := by
  cases X <;> rfl

theorem set_views_rest (X : ColorLeaf) (v : Color) (t : Style) :
    (ColorLeaf.set t v X).Views.Xray.ShowIcons = t.Views.Xray.ShowIcons ∧
      (ColorLeaf.set t v X).Views.Charts.DefaultDialColors =
        t.Views.Charts.DefaultDialColors ∧
      (ColorLeaf.set t v X).Views.Charts.DefaultChartColors =
        t.Views.Charts.DefaultChartColors ∧
      (ColorLeaf.set t v X).Views.Charts.ResourceColors = t.Views.Charts.ResourceColors := by
  cases X <;> exact ⟨rfl, rfl, rfl, rfl⟩

theorem get_showIcons (Y : ColorLeaf) (b : Bool) (t : Style) :
    Y.get { t with Views := { t.Views with Xray := { t.Views.Xray with ShowIcons := b } } } =
      Y.get t := by
  cases Y <;> rfl

theorem get_dialColors (Y : ColorLeaf) (cs : Colors) (t : Style) :
    Y.get { t with Views := { t.Views with Charts := { t.Views.Charts with
        DefaultDialColors := cs } } } = Y.get t := by
  cases Y <;> rfl

theorem get_chartColors (Y : ColorLeaf) (cs : Colors) (t : Style) :
    Y.get { t with Views := { t.Views with Charts := { t.Views.Charts with
        DefaultChartColors := cs } } } = Y.get t := by
  cases Y <;> rfl

theorem get_resourceColors (Y : ColorLeaf) (m : Option (List (String × Colors)))
    (t : Style) :
    Y.get { t with Views := { t.Views with Charts := { t.Views.Charts with
        ResourceColors := m } } } = Y.get t := by
  cases Y <;> rfl

theorem lookup_mapEntry_ne (key other : String) (n : Node) (m : List (String × Colors))
    (h : other ≠ key) : lookup other (mapEntry key n m).out = lookup other m := by
  cases n with
  | scalar value =>
    cases hr : resolve value <;> simp [mapEntry, hr, lookup_setMapIndex_ne _ _ _ _ h]
  | sequence children => simp [mapEntry, lookup_setMapIndex_ne _ _ _ _ h]
  | mapping children => simp [mapEntry]

theorem unmarshal_only_frame (X Y : Leaf) (n : Node) (s : Styles) (hp : X.plain)
    (h : Y ≠ X) :
    Y.get (yamlUnmarshal (Doc.only X.path n) s).1.K9s = Y.get s.K9s := by
  cases X with
  | color c =>
    simp only [Leaf.path, unmarshal_color]
    cases Y with
    | color d =>
      have hd : d ≠ c := fun e => h (by rw [e])
      simp only [Leaf.get, get_set_ne c d _ s.K9s hd]
    | showIcons => simp only [Leaf.get, (set_views_rest c _ s.K9s).1]
    | defaultDialColors => simp only [Leaf.get, (set_views_rest c _ s.K9s).2.1]
    | defaultChartColors => simp only [Leaf.get, (set_views_rest c _ s.K9s).2.2.1]
    | resourceColors key => simp only [Leaf.get, (set_views_rest c _ s.K9s).2.2.2]
  | showIcons =>
    simp only [Leaf.path, unmarshal_showIcons]
    cases Y with
    | color d => simp only [Leaf.get, get_showIcons]
    | showIcons => exact absurd rfl h
    | defaultDialColors => rfl
    | defaultChartColors => rfl
    | resourceColors key => rfl
  | defaultDialColors =>
    simp only [Leaf.path, unmarshal_dialColors]
    cases Y with
    | color d => simp only [Leaf.get, get_dialColors]
    | showIcons => rfl
    | defaultDialColors => exact absurd rfl h
    | defaultChartColors => rfl
    | resourceColors key => rfl
  | defaultChartColors =>
    simp only [Leaf.path, unmarshal_chartColors]
    cases Y with
    | color d => simp only [Leaf.get, get_chartColors]
    | showIcons => rfl
    | defaultDialColors => rfl
    | defaultChartColors => exact absurd rfl h
    | resourceColors key => rfl
  | resourceColors key =>
    simp only [Leaf.path,
      unmarshal_resourceColors key n s hp.1 (resolve_of_isNull key hp.2)]
    cases Y with
    | color d => simp only [Leaf.get, get_resourceColors]
    | showIcons => rfl
    | defaultDialColors => rfl
    | defaultChartColors => rfl
    | resourceColors other =>
      have ho : other ≠ key := fun e => h (by rw [e])
      simp only [Leaf.get, Option.getD_some, lookup_mapEntry_ne key other n _ ho]

theorem unmarshal_only_value (X : Leaf) (n : Node) (s : Styles) (hp : X.plain)
    (hok : (yamlUnmarshal (Doc.only X.path n) s).2 = none) :
    X.decoded n = some (X.get (yamlUnmarshal (Doc.only X.path n) s).1.K9s) := by
  cases X with
  | color c =>
    simp only [Leaf.path, unmarshal_color] at hok ⊢
    cases n with
    | scalar value =>
      simp [Leaf.decoded, Leaf.get, get_set_self, decodeColor, scalarColor_eq]
    | sequence children => simp [decodeColor] at hok
    | mapping children => simp [decodeColor] at hok
  | showIcons =>
    simp only [Leaf.path, unmarshal_showIcons] at hok ⊢
    cases n with
    | scalar value =>
      cases hr : resolve value with
      | null => simp [Leaf.decoded, Leaf.get, decodeBool, hr, (resolve_null value hr).2.1]
      | bool b => simp [Leaf.decoded, Leaf.get, decodeBool, hr, (resolve_bool value b hr).2]
      | other => simp [decodeBool, hr] at hok
    | sequence children => simp [decodeBool] at hok
    | mapping children => simp [decodeBool] at hok
  | defaultDialColors =>
    simp only [Leaf.path, unmarshal_dialColors] at hok ⊢
    cases n with
    | scalar value =>
      cases hr : resolve value with
      | null =>
        simp [Leaf.decoded, Leaf.get, paletteOf, decodeColors, hr, (resolve_null value hr).1]
      | bool b => simp [decodeColors, hr] at hok
      | other => simp [decodeColors, hr] at hok
    | sequence children =>
      simp only [decodeColors] at hok ⊢
      have h2 : (sequenceLoop children).2 = [] := by
        by_contra hne
        simp [hne] at hok
      simp [Leaf.decoded, Leaf.get, paletteOf, sequenceLoop_ok children h2]
    | mapping children => simp [decodeColors] at hok
  | defaultChartColors =>
    simp only [Leaf.path, unmarshal_chartColors] at hok ⊢
    cases n with
    | scalar value =>
      cases hr : resolve value with
      | null =>
        simp [Leaf.decoded, Leaf.get, paletteOf, decodeColors, hr, (resolve_null value hr).1]
      | bool b => simp [decodeColors, hr] at hok
      | other => simp [decodeColors, hr] at hok
    | sequence children =>
      simp only [decodeColors] at hok ⊢
      have h2 : (sequenceLoop children).2 = [] := by
        by_contra hne
        simp [hne] at hok
      simp [Leaf.decoded, Leaf.get, paletteOf, sequenceLoop_ok children h2]
    | mapping children => simp [decodeColors] at hok
  | resourceColors key =>
    simp only [Leaf.path,
      unmarshal_resourceColors key n s hp.1 (resolve_of_isNull key hp.2)] at hok ⊢
    cases n with
    | scalar value =>
      cases hr : resolve value with
      | null =>
        simp [Leaf.decoded, Leaf.get, paletteOf, mapEntry, hr, (resolve_null value hr).1,
          lookup_setMapIndex_self]
      | bool b => simp [mapEntry, hr] at hok
      | other => simp [mapEntry, hr] at hok
    | sequence children =>
      simp only [mapEntry] at hok ⊢
      have h2 : (sequenceLoop children).2 = [] := by
        by_contra hne
        simp [hne] at hok
      simp [Leaf.decoded, Leaf.get, paletteOf, sequenceLoop_ok children h2,
        lookup_setMapIndex_self]
    | mapping children => simp [mapEntry] at hok

/-! ### C1 -/

/-- C1, as stated, fails: with `l` registered twice, `RemoveListener(l)` leaves
one entry for `l` in `s.listeners`, and a notification still calls it. -/
theorem removeListener_duplicate_still_registered :
    pointer 1 ∈
        ((Styles.mk newStyle [pointer 1, pointer 1]).RemoveListener (pointer 1)).styles.listeners ∧
      ((Styles.mk newStyle [pointer 1, pointer 1]).RemoveListener
        (pointer 1)).styles.fireStylesChanged.map Prod.fst = [pointer 1] := by
  decide

/-- C1 (amended): when `RemoveListener(l)` returns (it panics only for an `l`
whose dynamic type is not comparable), it has removed one entry for `l`, the
first: the number of entries for `l` goes down by one (or stays zero), and the
list `pre ++ l :: post` with `l` not in `pre` becomes `pre ++ post`.  When `l`
occurs at most once in `s.listeners`, it does not occur there afterwards, and
neither `fireStylesChanged`, nor `Update`, nor a later `Load` (with a decoder
that adds no entry to the listener list) calls `l.StylesChanged`. -/
theorem removeListener_unregisters (s : Styles) (l : StyleListener)
    (hnp : (s.RemoveListener l).panicked = false) :
    (s.RemoveListener l).styles.listeners.count l = s.listeners.count l - 1 ∧
      (∀ pre post, s.listeners = pre ++ l :: post → l ∉ pre →
        (s.RemoveListener l).styles.listeners = pre ++ post) ∧
      (s.listeners.count l ≤ 1 →
        l ∉ (s.RemoveListener l).styles.listeners ∧
          (∀ c ∈ (s.RemoveListener l).styles.fireStylesChanged, c.1 ≠ l) ∧
          (∀ (tc : Tcell), ∀ c ∈ ((s.RemoveListener l).styles.Update tc).2, c.1 ≠ l) ∧
          (∀ (β : Type) (env : Env β) (path : String),
            (∀ f s0, ∀ l0 ∈ (env.Unmarshal f s0).1.listeners, l0 ∈ s0.listeners) →
              ∀ c ∈ ((s.RemoveListener l).styles.Load env path).calls, c.1 ≠ l)) ∧
      (l.typ.comparable = true → ∀ s0 : Styles, (s0.RemoveListener l).panicked = false) := by
  have hcount : (s.RemoveListener l).styles.listeners.count l = s.listeners.count l - 1 := by
    by_cases hmem : l ∈ s.listeners
    · have hc := mem_comparable s l hnp hmem
      obtain ⟨pre, post, hsplit, hpre⟩ := List.eq_append_cons_of_mem hmem
      rw [removeListener_split s l pre post hc hsplit hpre, hsplit]
      simp [List.count_append]
    · rw [removeListener_of_not_panicked s l hnp hmem, List.count_eq_zero_of_not_mem hmem]
  refine ⟨hcount, ?_, ?_, fun hc s0 => removeListener_comparable s0 l hc⟩
  · intro pre post hsplit hpre
    have hc := mem_comparable s l hnp (by rw [hsplit]; simp)
    rw [removeListener_split s l pre post hc hsplit hpre]
  · intro h
    have hnot : l ∉ (s.RemoveListener l).styles.listeners := by
      apply List.count_eq_zero.mp
      omega
    have hfire : ∀ c ∈ (s.RemoveListener l).styles.fireStylesChanged, c.1 ≠ l := by
      intro c hc1 e
      have h1 := (fire_mem _ c hc1).1
      rw [e] at h1
      exact hnot h1
    refine ⟨hnot, hfire, fun tc => hfire, ?_⟩
    intro β env path hsub c hc1 e
    have h1 := load_calls_mem env _ path c hc1
    rw [e] at h1
    cases hread : env.ReadFile path with
    | error err =>
      have hl : (s.RemoveListener l).styles.Load env path =
          { err := some err, styles := (s.RemoveListener l).styles, calls := [] } := by
        unfold Styles.Load
        simp [hread]
      rw [hl] at hc1
      cases hc1
    | ok f =>
      rw [(load_of_read env _ path f hread).2.1] at h1
      exact hnot (hsub f _ l h1)

/-- C1, at a concrete input: the registry `[1, 2]`, from which listener `1` is
removed, and a skin file loaded afterwards. -/
theorem removeListener_unregisters_witness :
    pointer 1 ∉ ((Styles.mk newStyle [pointer 1, pointer 2]).RemoveListener
        (pointer 1)).styles.listeners ∧
      ∀ c ∈ (((Styles.mk newStyle [pointer 1, pointer 2]).RemoveListener
          (pointer 1)).styles.Load (yamlEnv fun _ => .ok focusColorSkin) "skin.yml").calls,
        c.1 ≠ pointer 1 :=
  ⟨((removeListener_unregisters (Styles.mk newStyle [pointer 1, pointer 2]) (pointer 1)
      (by decide)).2.2.1 (by decide)).1,
    ((removeListener_unregisters (Styles.mk newStyle [pointer 1, pointer 2]) (pointer 1)
      (by decide)).2.2.1 (by decide)).2.2.2 Doc (yamlEnv fun _ => .ok focusColorSkin)
      "skin.yml" (fun f s0 l0 h => yamlUnmarshal_listeners_mem f s0 l0 h)⟩

/-! ### C4 -/

/-- C4: for a listener `l` (of comparable dynamic type) that occurs in
`s.listeners`, `RemoveListener(l)` deletes its first occurrence and nothing
else: the list `pre ++ l :: post` with `l` not in `pre` becomes `pre ++ post`,
one entry shorter, the tree is untouched and the call does not panic. -/
theorem removeListener_deletes_first (s : Styles) (l : StyleListener)
    (hc : l.typ.comparable = true) (h : l ∈ s.listeners) :
    ∃ pre post, s.listeners = pre ++ l :: post ∧ l ∉ pre ∧
      (s.RemoveListener l).styles.listeners = pre ++ post ∧
      (s.RemoveListener l).styles.listeners.length + 1 = s.listeners.length ∧
      (s.RemoveListener l).styles.K9s = s.K9s ∧
      (s.RemoveListener l).panicked = false := by
  obtain ⟨pre, post, hsplit, hpre⟩ := List.eq_append_cons_of_mem h
  refine ⟨pre, post, hsplit, hpre, ?_, ?_, removeListener_K9s s l, ?_⟩
  · rw [removeListener_split s l pre post hc hsplit hpre]
  · rw [removeListener_split s l pre post hc hsplit hpre, hsplit]
    simp
    omega
  · rw [removeListener_split s l pre post hc hsplit hpre]

/-- C4, at a concrete input: removing listener `2` from `[1, 2, 3, 2]` leaves
`[1, 3, 2]`. -/
theorem removeListener_deletes_first_witness :
    ((Styles.mk newStyle [pointer 1, pointer 2, pointer 3, pointer 2]).RemoveListener
        (pointer 2)).styles.listeners = [pointer 1, pointer 3, pointer 2] ∧
      ∃ pre post, [pointer 1, pointer 2, pointer 3, pointer 2] = pre ++ pointer 2 :: post ∧
        pointer 2 ∉ pre ∧
        ((Styles.mk newStyle [pointer 1, pointer 2, pointer 3, pointer 2]).RemoveListener
          (pointer 2)).styles.listeners = pre ++ post :=
  ⟨by decide,
    (removeListener_deletes_first
      (Styles.mk newStyle [pointer 1, pointer 2, pointer 3, pointer 2]) (pointer 2) rfl
      (by decide)).imp fun _ hp => hp.imp fun _ hq => ⟨hq.1, hq.2.1, hq.2.2.1⟩⟩

/-! ### C5 -/

/-- C5, as stated, fails twice over: with `l` registered twice, a second
`RemoveListener(l)` removes the remaining entry, so calling it twice is not
the same as calling it once; and `RemoveListener(l)` for an unregistered `l`
whose dynamic type is not comparable panics when the registry holds an entry
of that type. -/
theorem removeListener_twice_differs :
    ((Styles.mk newStyle [pointer 1, pointer 1]).RemoveListener
        (pointer 1)).styles.RemoveListener (pointer 1) ≠
        (Styles.mk newStyle [pointer 1, pointer 1]).RemoveListener (pointer 1) ∧
      sliceStruct 2 ∉ [sliceStruct 1] ∧
      ((Styles.mk newStyle [sliceStruct 1]).RemoveListener (sliceStruct 2)).panicked = true := by
  decide

/-- C5 (amended): `RemoveListener(l)` panics exactly when the dynamic type of
`l` is not comparable and the registry holds an entry of that dynamic type,
so never for an `l` of comparable dynamic type.  When it does not panic, then
for a listener `l` that is not registered it leaves `*s` as it was, registry
and tree; and for a listener that occurs at most once in `s.listeners`,
calling `RemoveListener(l)` twice leaves `*s` as calling it once does. -/
theorem removeListener_idempotent (s : Styles) (l : StyleListener)
    (hnp : (s.RemoveListener l).panicked = false) :
    (l ∉ s.listeners → s.RemoveListener l = { styles := s, panicked := false }) ∧
      (s.listeners.count l ≤ 1 →
        (s.RemoveListener l).styles.RemoveListener l =
          { styles := (s.RemoveListener l).styles, panicked := false }) ∧
      (∀ (s0 : Styles) (l1 : StyleListener), (s0.RemoveListener l1).panicked = true ↔
        l1.typ.comparable = false ∧ ∃ lis ∈ s0.listeners, lis.typ = l1.typ) ∧
      (l.typ.comparable = true → ∀ s0 : Styles, (s0.RemoveListener l).panicked = false) := by
  refine ⟨fun h => removeListener_of_not_panicked s l hnp h, ?_, removeListener_panicked,
    fun hc s0 => removeListener_comparable s0 l hc⟩
  intro h
  by_cases hmem : l ∈ s.listeners
  · have hc := mem_comparable s l hnp hmem
    apply removeListener_not_mem _ _ hc
    obtain ⟨pre, post, hsplit, hpre⟩ := List.eq_append_cons_of_mem hmem
    rw [removeListener_split s l pre post hc hsplit hpre]
    rw [hsplit] at h
    simp only [List.count_append, List.count_cons_self] at h
    have hpost : l ∉ post := List.count_eq_zero.mp (by omega)
    simp [hpre, hpost]
  · have h1 := removeListener_of_not_panicked s l hnp hmem
    rw [h1]
    exact h1

/-- C5, at concrete inputs: listener `3` is not in `[1, 2]`, and listener `1`
occurs once in it. -/
theorem removeListener_idempotent_witness :
    (Styles.mk newStyle [pointer 1, pointer 2]).RemoveListener (pointer 3) =
        { styles := Styles.mk newStyle [pointer 1, pointer 2], panicked := false } ∧
      ((Styles.mk newStyle [pointer 1, pointer 2]).RemoveListener
          (pointer 1)).styles.RemoveListener (pointer 1) =
        { styles := ((Styles.mk newStyle [pointer 1, pointer 2]).RemoveListener
            (pointer 1)).styles
          panicked := false } :=
  ⟨(removeListener_idempotent (Styles.mk newStyle [pointer 1, pointer 2]) (pointer 3)
      (by decide)).1 (by decide),
    (removeListener_idempotent (Styles.mk newStyle [pointer 1, pointer 2]) (pointer 1)
      (by decide)).2.1 (by decide)⟩

/-! ### C6 -/

/-- C6: `AddListener(l)` appends `l` to the listener list whether or not it is
registered already (the list grows by one, the entries before it and the tree
are unchanged); a notification calls a listener once per entry, so after
registering `l` twice it is called twice more than before. -/
theorem addListener_appends (s : Styles) (l : StyleListener) :
    (s.AddListener l).listeners = s.listeners ++ [l] ∧
      (s.AddListener l).listeners.length = s.listeners.length + 1 ∧
      (s.AddListener l).K9s = s.K9s ∧
      (s.fireStylesChanged.map Prod.fst).count l = s.listeners.count l ∧
      (((s.AddListener l).AddListener l).fireStylesChanged.map Prod.fst).count l =
        s.listeners.count l + 2 := by
  refine ⟨rfl, by simp [Styles.AddListener], rfl, count_fst_fire s l, ?_⟩
  rw [count_fst_fire]
  simp [Styles.AddListener, List.count_append]

/-! ### C7 -/

/-- C7: one notification calls `StylesChanged` once per entry of
`s.listeners`, in the order of the list, each time with `s`; `Update` makes
exactly these calls, and so does a `Load` that succeeds, on the styles it
leaves: the listeners called are the entries of the listener list after
decoding, in order, and each is handed those styles. -/
theorem fireStylesChanged_registration_order (s : Styles) :
    s.fireStylesChanged = s.listeners.map (fun l => (l, s)) ∧
      s.fireStylesChanged.map Prod.fst = s.listeners ∧
      (∀ c ∈ s.fireStylesChanged, c.2 = s) ∧
      (∀ (tc : Tcell), (s.Update tc).2 = s.fireStylesChanged) ∧
      (∀ (β : Type) (env : Env β) (path : String), (s.Load env path).err = none →
        (s.Load env path).calls = (s.Load env path).styles.fireStylesChanged ∧
          (s.Load env path).calls.map Prod.fst = (s.Load env path).styles.listeners ∧
          ∀ c ∈ (s.Load env path).calls, c.2 = (s.Load env path).styles) := by
  refine ⟨fireStylesChanged_eq_map s, fire_fst s, fun c hc => (fire_mem s c hc).2,
    fun _ => rfl, ?_⟩
  intro β env path hok
  have hcalls := load_calls_of_ok env s path hok
  refine ⟨hcalls, by rw [hcalls, fire_fst], ?_⟩
  intro c hc
  rw [hcalls] at hc
  exact (fire_mem _ c hc).2

/-- C7, at a concrete input: `focusColorSkin` loaded with listeners `2`, `1`,
`2` registered calls them in that order. -/
theorem fireStylesChanged_registration_order_witness :
    ((Styles.mk newStyle [pointer 2, pointer 1, pointer 2]).Load
        (yamlEnv fun _ => .ok focusColorSkin) "skin.yml").calls.map Prod.fst =
      [pointer 2, pointer 1, pointer 2] := by
  have h := ((fireStylesChanged_registration_order
    (Styles.mk newStyle [pointer 2, pointer 1, pointer 2])).2.2.2.2
    Doc (yamlEnv fun _ => .ok focusColorSkin) "skin.yml" (by decide)).2.1
  rw [h]
  decide

/-! ### C9 -/

/-- C9: `Reset` replaces the tree by the default tree, that of `NewStyles()`,
whatever the tree was before; it leaves the listener list unchanged and calls
no listener. -/
theorem reset_restores_defaults (s : Styles) :
    s.Reset.1.K9s = NewStyles.K9s ∧
      s.Reset.1.K9s = newStyle ∧
      (∀ t : Style, (Styles.mk t s.listeners).Reset = s.Reset) ∧
      s.Reset.1.listeners = s.listeners ∧
      s.Reset.2 = [] :=
  ⟨rfl, rfl, fun _ => rfl, rfl, rfl⟩

/-! ### C10 -/

/-- C10, as stated, fails: `newCharts` gives `ResourceColors` no value, so the
default tree has a leaf at its zero value, the nil map. -/
theorem newStyle_not_populated : ¬ newStyle.populated :=
  fun h => h.2.2.2.2 rfl

/-- C10 (amended): in the tree built by `newStyle()` every `Color` leaf is a
non-empty token, both palettes are non-empty and hold non-empty tokens, and
`ShowIcons` is set; `Charts.ResourceColors` alone is left unset, the nil map.
The tree does not depend on where `newStyle()` is called: `NewStyles()` and
`Reset` from any state hold the same one. -/
theorem newStyle_leaves :
    (∀ X : ColorLeaf, X.get newStyle ≠ "") ∧
      newStyle.Views.Charts.DefaultDialColors ≠ [] ∧
      newStyle.Views.Charts.DefaultChartColors ≠ [] ∧
      (∀ c ∈ newStyle.Views.Charts.DefaultDialColors ++
          newStyle.Views.Charts.DefaultChartColors, c ≠ "") ∧
      newStyle.Views.Xray.ShowIcons = true ∧
      newStyle.Views.Charts.ResourceColors = none ∧
      (∀ s : Styles, s.Reset.1.K9s = NewStyles.K9s) := by
  refine ⟨?_, by decide, by decide, by decide, rfl, rfl, fun _ => rfl⟩
  intro X
  cases X <;> decide

/-! ### C2 -/

/-- C2, as stated, fails: on the file `mistypedSkin` the decoder returns a type
error for `bgColor`, `Load` returns it, and the tree no longer equals the tree
before the call: `fgColor`, decoded before the mismatch, is now `red`. -/
theorem load_type_error_changes_tree :
    (NewStyles.Load (yamlEnv fun _ => .ok mistypedSkin) "skin.yml").err =
        some (.typeError [terror "sequence" "config.Color"]) ∧
      (NewStyles.Load (yamlEnv fun _ => .ok mistypedSkin) "skin.yml").styles.K9s.Body.FgColor =
        "red" ∧
      (NewStyles.Load (yamlEnv fun _ => .ok mistypedSkin) "skin.yml").styles.K9s ≠
        NewStyles.K9s := by
  decide

/-- C2 (amended): when `Load` fails at the decode step it returns the error of
`yaml.Unmarshal` and calls no listener; it does nothing to `*s` itself, which
is left exactly as the decoder left it: equal to `*s` before the call when the
decoder wrote nothing before it failed (as for input that does not parse), and
holding the fields decoded so far otherwise.  The decoder leaves the listener
list as it was whenever it returns an error. -/
theorem load_decode_failure {β : Type} (env : Env β) (s : Styles) (path : String) (f : β)
    (s1 : Styles) (err : Error) (hread : env.ReadFile path = .ok f)
    (hdec : env.Unmarshal f s = (s1, some err)) :
    (s.Load env path).err = some err ∧
      (s.Load env path).calls = [] ∧
      (s.Load env path).styles = s1 ∧
      (s.Load env path).styles.K9s = s1.K9s ∧
      (s1 = s → (s.Load env path).styles = s) ∧
      (∀ (msg : String) (s0 : Styles),
        yamlUnmarshal (.malformed msg) s0 = (s0, some (.yaml msg))) ∧
      (∀ (doc : Doc) (s0 : Styles), (yamlUnmarshal doc s0).2 ≠ none →
        (yamlUnmarshal doc s0).1.listeners = s0.listeners) := by
  have hl : s.Load env path = { err := some err, styles := s1, calls := [] } := by
    unfold Styles.Load
    simp [hread, hdec]
  refine ⟨by rw [hl], by rw [hl], by rw [hl], by rw [hl], ?_, fun _ _ => rfl,
    yamlUnmarshal_listeners_of_error⟩
  intro hk
  rw [hl, hk]

/-- C2, at concrete inputs: a file that does not parse, with listeners `1` and
`2` registered. -/
theorem load_decode_failure_witness :
    ((Styles.mk newStyle [pointer 1, pointer 2]).Load
        (yamlEnv fun _ => .ok (.malformed "did not find expected key")) "skin.yml").err =
        some (.yaml "did not find expected key") ∧
      ((Styles.mk newStyle [pointer 1, pointer 2]).Load
        (yamlEnv fun _ => .ok (.malformed "did not find expected key")) "skin.yml").calls =
        [] ∧
      ((Styles.mk newStyle [pointer 1, pointer 2]).Load
        (yamlEnv fun _ => .ok (.malformed "did not find expected key")) "skin.yml").styles =
        Styles.mk newStyle [pointer 1, pointer 2] :=
  have h := load_decode_failure (yamlEnv fun _ => .ok (.malformed "did not find expected key"))
    (Styles.mk newStyle [pointer 1, pointer 2]) "skin.yml"
    (.malformed "did not find expected key")
    (Styles.mk newStyle [pointer 1, pointer 2]) (.yaml "did not find expected key") rfl rfl
  ⟨h.1, h.2.1, h.2.2.2.2.1 rfl⟩

/-! ### C3 -/

/-- C3: when the file sets one leaf `X` of the tree and nothing else (`X` a
field, or a map entry under a plain key), a `Load` that succeeds gives `X` the
value decoded from the file, leaves every other leaf at the value it had
before the call and leaves the listener list as it was.  Loading
`focusColorSkin` onto the default theme makes `Frame.Border.FocusColor` equal
to `red` and leaves `Frame.Border.FgColor` at `dodgerblue`, and every other
field at its default. -/
theorem load_single_leaf :
    (∀ (fs : String → Except Error Doc) (s : Styles) (path : String) (X : Leaf) (n : Node),
        X.plain → fs path = .ok (Doc.only X.path n) →
          (s.Load (yamlEnv fs) path).err = none →
          X.decoded n = some (X.get (s.Load (yamlEnv fs) path).styles.K9s) ∧
            (∀ Y : Leaf, Y ≠ X →
              Y.get (s.Load (yamlEnv fs) path).styles.K9s = Y.get s.K9s) ∧
            (s.Load (yamlEnv fs) path).styles.listeners = s.listeners) ∧
      (NewStyles.Load (yamlEnv fun _ => .ok focusColorSkin) "skin.yml").err = none ∧
      (NewStyles.Load (yamlEnv fun _ => .ok focusColorSkin)
        "skin.yml").styles.K9s.Frame.Border.FgColor = "dodgerblue" ∧
      (NewStyles.Load (yamlEnv fun _ => .ok focusColorSkin)
        "skin.yml").styles.K9s.Frame.Border.FocusColor = "red" ∧
      (NewStyles.Load (yamlEnv fun _ => .ok focusColorSkin) "skin.yml").styles.K9s =
        { newStyle with Frame := { newFrame with Border := ⟨"dodgerblue", "red"⟩ } } := by
  refine ⟨?_, by decide, by decide, by decide, by decide⟩
  intro fs s path X n hp hread hok
  have hload := load_of_read (yamlEnv fs) s path (Doc.only X.path n) hread
  have hk : (s.Load (yamlEnv fs) path).styles = (yamlUnmarshal (Doc.only X.path n) s).1 := by
    rw [hload.2.1]; rfl
  have he : (yamlUnmarshal (Doc.only X.path n) s).2 = none := by
    rw [← hok, hload.1]; rfl
  refine ⟨?_, ?_, ?_⟩
  · rw [hk]
    exact unmarshal_only_value X n s hp he
  · intro Y hY
    rw [hk]
    exact unmarshal_only_frame X Y n s hp hY
  · rw [hk]
    exact yamlUnmarshal_mapping_listeners _ s

/-- C3, at a concrete input: a file that sets only `k9s.body.logoColor`, to
`teal`, loaded onto the default theme with listener `1` registered. -/
theorem load_single_leaf_witness :
    Leaf.get ((Styles.mk newStyle [pointer 1]).Load
        (yamlEnv fun _ => .ok (Doc.only (Leaf.color .bodyLogoColor).path (.scalar "teal")))
        "skin.yml").styles.K9s (.color .bodyLogoColor) = .color "teal" ∧
      Leaf.get ((Styles.mk newStyle [pointer 1]).Load
        (yamlEnv fun _ => .ok (Doc.only (Leaf.color .bodyLogoColor).path (.scalar "teal")))
        "skin.yml").styles.K9s (.color .bodyFgColor) = .color "cadetblue" := by
  have h := load_single_leaf.1
    (fun _ => .ok (Doc.only (Leaf.color .bodyLogoColor).path (.scalar "teal")))
    (Styles.mk newStyle [pointer 1]) "skin.yml" (.color .bodyLogoColor) (.scalar "teal")
    trivial rfl (by decide)
  refine ⟨?_, ?_⟩
  · have h1 := h.1
    simp only [Leaf.decoded, Option.some.injEq] at h1
    rw [← h1]
    decide
  · rw [h.2.1 (.color .bodyFgColor) (by decide)]
    decide

/-! ### C8 -/

/-- C8, as stated, fails: on the file `nullSkin` the decoder sets `*s` to its
zero value, the listener list included, and returns no error; `Load` then
succeeds and calls nobody, so the listener added just before is not called. -/
theorem load_null_document_calls_nobody :
    ((Styles.mk newStyle [pointer 1]).AddListener (pointer 5)).Load
        (yamlEnv fun _ => .ok nullSkin) "skin.yml" =
      { err := none, styles := Styles.zero, calls := [] } := by
  decide

/-- C8 (amended): for a listener `L` that is not registered in `s`, after
`AddListener(L)` a `Load` that succeeds and whose decoder leaves the listener
list in place calls `L.StylesChanged` exactly once, and the styles it hands
over are the styles the decoder produced, which `Load` leaves in `*s`.  The
decoder leaves the listener list in place for every document whose root is a
mapping and for input without a document. -/
theorem addListener_load_invokes_once {β : Type} (env : Env β) (s : Styles)
    (L : StyleListener) (path : String) (f : β) (s1 : Styles) (hnew : L ∉ s.listeners)
    (hread : env.ReadFile path = .ok f)
    (hdec : env.Unmarshal f (s.AddListener L) = (s1, none))
    (hkeep : s1.listeners = (s.AddListener L).listeners) :
    ((s.AddListener L).Load env path).err = none ∧
      (((s.AddListener L).Load env path).calls.map Prod.fst).count L = 1 ∧
      (∀ c ∈ ((s.AddListener L).Load env path).calls, c.2 = s1) ∧
      ((s.AddListener L).Load env path).styles = s1 ∧
      (∀ (es : List (String × Node)) (s0 : Styles),
        (yamlUnmarshal (.root (.mapping es)) s0).1.listeners = s0.listeners) ∧
      (∀ s0 : Styles, yamlUnmarshal .empty s0 = (s0, none)) := by
  have hl : (s.AddListener L).Load env path =
      { err := none, styles := s1, calls := s1.fireStylesChanged } := by
    unfold Styles.Load
    simp [hread, hdec]
  refine ⟨by rw [hl], ?_, ?_, by rw [hl], yamlUnmarshal_mapping_listeners, fun _ => rfl⟩
  · rw [hl]
    simp only
    rw [count_fst_fire, hkeep]
    simp [Styles.AddListener, List.count_append, List.count_eq_zero_of_not_mem hnew]
  · intro c hc
    rw [hl] at hc
    exact (fire_mem _ c hc).2

/-- C8, at a concrete input: listener `5` is added to the registry `[1]` of
the default theme, then `focusColorSkin` is loaded. -/
theorem addListener_load_invokes_once_witness :
    ((((Styles.mk newStyle [pointer 1]).AddListener (pointer 5)).Load
        (yamlEnv fun _ => .ok focusColorSkin) "skin.yml").calls.map Prod.fst).count
        (pointer 5) = 1 ∧
      (((Styles.mk newStyle [pointer 1]).AddListener (pointer 5)).Load
        (yamlEnv fun _ => .ok focusColorSkin)
        "skin.yml").styles.K9s.Frame.Border.FocusColor = "red" :=
  have h := addListener_load_invokes_once (yamlEnv fun _ => .ok focusColorSkin)
    (Styles.mk newStyle [pointer 1]) (pointer 5) "skin.yml" focusColorSkin
    (yamlUnmarshal focusColorSkin ((Styles.mk newStyle [pointer 1]).AddListener (pointer 5))).1
    (by decide) rfl (by decide) (by decide)
  ⟨h.2.1, by rw [h.2.2.2.1]; decide⟩

/-! ### Color resolution -/

theorem color_default (tc : Tcell) : Color.Color tc DefaultColor = tc.ColorDefault := by
  simp [Color.Color]

theorem color_transparent (tc : Tcell) :
    Color.Color tc TransparentColor =
      match tc.ColorNames "-" with
      | some color => color
      | none => tc.GetColor "-" := by
  have hne : ¬ TransparentColor = DefaultColor := by decide
  unfold Color.Color
  rw [if_neg hne]
  rfl

theorem getColor_transparent (names : String → Option Int) (h : names "-" = none) :
    GetColor names "-" = ColorDefault := by
  have hlen : ¬ ("-".utf8ByteSize = 7 ∧ "-".get 0 = '#') := by decide
  simp [GetColor, h, hlen]

theorem colors_loop_eq (tc : Tcell) (c : List Color) (cc : List Int) :
    Colors.loop tc c cc = cc ++ c.map (Color.Color tc) := by
  induction c generalizing cc with
  | nil => simp [Colors.loop]
  | cons color rest ih => simp [Colors.loop, ih]

/-! ### C11 -/

/-- C11, as stated, fails: with the `GetColor` of `tcell`, resolving
`TransparentColor` gives `ColorDefault`, the very color that resolving
`DefaultColor` gives. -/
theorem transparent_not_distinct :
    Color.Color (tcellWith basicColorNames) TransparentColor =
        Color.Color (tcellWith basicColorNames) DefaultColor ∧
      Color.Color (tcellWith basicColorNames) TransparentColor = ColorDefault := by
  decide

/-- C11 (amended): `Color.Color()` has a branch for `DefaultColor`, which
resolves to `tcell.ColorDefault`, and none for `TransparentColor`, which is
looked up in `ColorNames` and handed to `GetColor` like any other token; `-`
is no color name, and `GetColor` falls back to `ColorDefault`, so resolving
`TransparentColor` yields `tcell.ColorDefault`, the same color as resolving
`DefaultColor`. -/
theorem transparent_resolves_to_default (names : String → Option Int)
    (hname : names "-" = none) :
    Color.Color (tcellWith names) TransparentColor = ColorDefault ∧
      Color.Color (tcellWith names) DefaultColor = ColorDefault ∧
      Color.Color (tcellWith names) TransparentColor =
        Color.Color (tcellWith names) DefaultColor ∧
      (∀ tc : Tcell, Color.Color tc DefaultColor = tc.ColorDefault) ∧
      (∀ tc : Tcell, tc.ColorNames "-" = none →
        Color.Color tc TransparentColor = tc.GetColor "-") := by
  have ht : Color.Color (tcellWith names) TransparentColor = ColorDefault := by
    rw [color_transparent]
    simp [tcellWith, hname, getColor_transparent names hname]
  have hd : Color.Color (tcellWith names) DefaultColor = ColorDefault :=
    color_default (tcellWith names)
  refine ⟨ht, hd, by rw [ht, hd], color_default, ?_⟩
  intro tc h
  rw [color_transparent, h]

/-- C11, at a concrete input: the table of the sixteen basic colors. -/
theorem transparent_resolves_to_default_witness :
    Color.Color (tcellWith basicColorNames) TransparentColor = ColorDefault ∧
      Color.Color (tcellWith basicColorNames) DefaultColor = ColorDefault :=
  ⟨(transparent_resolves_to_default basicColorNames (by decide)).1,
    (transparent_resolves_to_default basicColorNames (by decide)).2.1⟩

/-! ### C12 -/

/-- C12: `c.Colors()` resolves `c` element by element: the result is the list
of `c[i].Color()` in the order of `c`, so it is as long as `c`, its `i`-th
element is the color of the `i`-th element of `c`, and the empty sequence
gives the empty sequence. -/
theorem colors_elementwise (tc : Tcell) (c : Colors) :
    Colors.Colors tc c = c.map (Color.Color tc) ∧
      (Colors.Colors tc c).length = c.length ∧
      (∀ i : Nat, (Colors.Colors tc c).get? i = (c.get? i).map (Color.Color tc)) ∧
      Colors.Colors tc [] = [] := by
  have h : Colors.Colors tc c = c.map (Color.Color tc) := by
    simp [Colors.Colors, colors_loop_eq]
  refine ⟨h, by rw [h, List.length_map], ?_, rfl⟩
  intro i
  rw [h]
  simp [List.get?_eq_getElem?]

/-! ### C13 -/

/-- C13: the `Body` foreground token of the default theme is `cadetblue`; for
the theme of `NewStyles()` and for any theme after `Reset`, `FgColor()` is the
color `NewColor("cadetblue").Color()`, and `BgColor()` is the color of the
default `Body.BgColor` token, `black`. -/
theorem default_fgColor (tc : Tcell) (s : Styles) :
    newStyle.Body.FgColor = "cadetblue" ∧
      NewStyles.FgColor tc = Color.Color tc (NewColor "cadetblue") ∧
      s.Reset.1.FgColor tc = Color.Color tc (NewColor "cadetblue") ∧
      NewStyles.BgColor tc = Color.Color tc newStyle.Body.BgColor ∧
      s.Reset.1.BgColor tc = Color.Color tc newStyle.Body.BgColor ∧
      newStyle.Body.BgColor = "black" :=
  ⟨rfl, rfl, rfl, rfl, rfl, rfl⟩

/-! ### C14 -/

/-- C14: a `Color` is its token text: `NewColor(t).String()` is `t`,
`NewColor(c.String())` is `c`, and two colors are equal exactly when their
token strings are. -/
theorem color_roundtrip (t : String) (c d : Color) :
    Color.String (NewColor t) = t ∧
      NewColor (Color.String c) = c ∧
      (c = d ↔ Color.String c = Color.String d) :=
  ⟨rfl, rfl, Iff.rfl⟩

/-! ### C15 -/

/-- C15: for a listener `l` (of comparable dynamic type) that is not
registered, `AddListener(l)` followed by `RemoveListener(l)` restores `*s`,
the listener list in its order; for one that is registered the pair deletes
its first occurrence and keeps the entry appended at the end, which leaves the
same entries with `l` moved.  The pair does not panic. -/
theorem addListener_removeListener (s : Styles) (l : StyleListener)
    (hc : l.typ.comparable = true) :
    (l ∉ s.listeners →
        (s.AddListener l).RemoveListener l = { styles := s, panicked := false }) ∧
      (l ∈ s.listeners → ∃ pre post, s.listeners = pre ++ l :: post ∧ l ∉ pre ∧
        ((s.AddListener l).RemoveListener l).styles.listeners = pre ++ post ++ [l]) ∧
      ((s.AddListener l).RemoveListener l).styles.listeners.Perm s.listeners ∧
      ((s.AddListener l).RemoveListener l).styles.K9s = s.K9s ∧
      ((s.AddListener l).RemoveListener l).panicked = false := by
  have hnot : l ∉ s.listeners →
      (s.AddListener l).RemoveListener l = { styles := s, panicked := false } := by
    intro h
    rw [removeListener_split (s.AddListener l) l s.listeners [] hc rfl h]
    simp [Styles.AddListener]
  have hmem : l ∈ s.listeners → ∃ pre post, s.listeners = pre ++ l :: post ∧ l ∉ pre ∧
      (s.AddListener l).RemoveListener l =
        { styles := { s with listeners := pre ++ post ++ [l] }, panicked := false } := by
    intro h
    obtain ⟨pre, post, hsplit, hpre⟩ := List.eq_append_cons_of_mem h
    refine ⟨pre, post, hsplit, hpre, ?_⟩
    rw [removeListener_split (s.AddListener l) l pre (post ++ [l]) hc
      (by simp [Styles.AddListener, hsplit]) hpre]
    simp [Styles.AddListener]
  refine ⟨hnot, ?_, ?_, ?_, ?_⟩
  · intro h
    obtain ⟨pre, post, hsplit, hpre, hr⟩ := hmem h
    exact ⟨pre, post, hsplit, hpre, by rw [hr]⟩
  · by_cases h : l ∈ s.listeners
    · obtain ⟨pre, post, hsplit, _, hr⟩ := hmem h
      rw [hr, hsplit]
      simp only [List.append_assoc]
      exact List.Perm.append_left pre (List.perm_append_singleton l post)
    · rw [hnot h]
  · exact removeListener_K9s (s.AddListener l) l
  · by_cases h : l ∈ s.listeners
    · obtain ⟨pre, post, _, _, hr⟩ := hmem h
      rw [hr]
    · rw [hnot h]

/-- C15, at concrete inputs: listener `3` is not in `[1, 2]`, and listener `1`
is. -/
theorem addListener_removeListener_witness :
    ((Styles.mk newStyle [pointer 1, pointer 2]).AddListener (pointer 3)).RemoveListener
        (pointer 3) =
        { styles := Styles.mk newStyle [pointer 1, pointer 2], panicked := false } ∧
      (((Styles.mk newStyle [pointer 1, pointer 2]).AddListener (pointer 1)).RemoveListener
        (pointer 1)).styles.listeners = [pointer 2, pointer 1] :=
  ⟨(addListener_removeListener (Styles.mk newStyle [pointer 1, pointer 2]) (pointer 3) rfl).1
      (by decide),
    by decide⟩

/-! ### C16 -/

/-- C16: `Reset` and `DefaultSkin` do the same: from any `s` they leave the
same styles, the default tree with the listener list of `s`, and neither
calls a listener. -/
theorem reset_eq_defaultSkin (s : Styles) :
    s.Reset = s.DefaultSkin ∧
      s.Reset.1.K9s = s.DefaultSkin.1.K9s ∧
      s.Reset.1.listeners = s.DefaultSkin.1.listeners ∧
      s.Reset.2 = [] ∧
      s.DefaultSkin.2 = [] :=
  ⟨rfl, rfl, rfl, rfl, rfl⟩

/-! ### C17 -/

/-- C17: `AddListener` and `RemoveListener` leave the tree `s.K9s` as it was,
a notification hands every listener the styles with that tree, and each
accessor, which only reads `*s`, returns the sub-record of `s.K9s` it is named
after. -/
theorem registry_keeps_tree (s : Styles) (l : StyleListener) :
    (s.AddListener l).K9s = s.K9s ∧
      (s.RemoveListener l).styles.K9s = s.K9s ∧
      (∀ c ∈ s.fireStylesChanged, c.2.K9s = s.K9s) ∧
      s.Body = s.K9s.Body ∧
      s.Frame = s.K9s.Frame ∧
      s.Crumb = s.K9s.Frame.Crumb ∧
      s.Title = s.K9s.Frame.Title ∧
      s.Charts = s.K9s.Views.Charts ∧
      s.Table = s.K9s.Views.Table ∧
      s.Xray = s.K9s.Views.Xray ∧
      s.Views = s.K9s.Views := by
  refine ⟨rfl, removeListener_K9s s l, ?_, rfl, rfl, rfl, rfl, rfl, rfl, rfl, rfl⟩
  intro c hc
  rw [(fire_mem s c hc).2]

end Config
